import Mathlib

/-! ## ccnx-tutorial: chunking and response-cache engine

A shallow embedding of `tutorial_Server.c` and `tutorial_Common.c`.
Machine integers are natural numbers reduced modulo `2^64` where the C code
computes in `uint64_t` / `size_t`; fatal LongBow assertions and traps are the
error side of `Except`; a `NULL` result is `none`.
-/

namespace CcnxTutorial

/-! ## Machine arithmetic -/

/-- Number of values of a `uint64_t` (and of `size_t` on the 64-bit targets of the tutorial). -/
def UINT64_SIZE : Nat := 2 ^ 64

/-- Number of values of a `uint32_t`. -/
def UINT32_SIZE : Nat := 2 ^ 32

/-- The constant `tutorialCommon_ChunkSize` of `tutorial_Common.c`. -/
def tutorialCommon_ChunkSize : Nat := 1200

/-! ## C runtime and library interface -/

/-- A byte of data. -/
abbrev Byte := Fin 256

/-- A C string, given as the characters that precede its terminating NUL. -/
abbrev CStr := List Char

/-- The ways a run is aborted: a failed LongBow assertion, `trapUnexpectedState`,
and an index outside a library container. -/
inductive Fault where
  | assertionFailed
  | unexpectedState
  | outOfBounds
  deriving DecidableEq, Repr

/-- The C function `tolower` in the "C" locale, on the character's code. -/
def tolower (c : Char) : Nat :=
  if 65 ≤ c.toNat ∧ c.toNat ≤ 90 then c.toNat + 32 else c.toNat

/-- The C function `strlen`. -/
def strlen (s : CStr) : Nat := s.length

/-- The C function `strncasecmp(s1, s2, n)`: compares at most `n` characters, folding case,
and stops at the first difference; the end of a string reads as the terminating NUL (code 0). -/
def strncasecmp : CStr → CStr → Nat → Int
  | _, _, 0 => 0
  | [], [], _ + 1 => 0
  | [], c2 :: _, _ + 1 => 0 - (tolower c2 : Int)
  | c1 :: _, [], _ + 1 => (tolower c1 : Int) - 0
  | c1 :: s1, c2 :: s2, n + 1 =>
    if tolower c1 ≠ tolower c2 then (tolower c1 : Int) - (tolower c2 : Int)
    else strncasecmp s1 s2 n

/-- A `PARCBuffer`: a backing array with a position and a limit. -/
structure PARCBuffer where
  array : List Byte
  position : Nat
  limit : Nat
  deriving DecidableEq, Repr

/-- A buffer over `bytes`, positioned at 0 with its limit at the end. -/
def parcBuffer_Wrap (bytes : List Byte) : PARCBuffer :=
  { array := bytes, position := 0, limit := bytes.length }

def parcBuffer_Capacity (buffer : PARCBuffer) : Nat := buffer.array.length

def parcBuffer_Limit (buffer : PARCBuffer) : Nat := buffer.limit

def parcBuffer_Position (buffer : PARCBuffer) : Nat := buffer.position

def parcBuffer_Remaining (buffer : PARCBuffer) : Nat := buffer.limit - buffer.position

/-- The library asserts that the new position does not exceed the limit. -/
def parcBuffer_SetPosition (buffer : PARCBuffer) (newPosition : Nat) : Except Fault PARCBuffer :=
  if newPosition ≤ buffer.limit then .ok { buffer with position := newPosition }
  else .error Fault.assertionFailed

/-- The library asserts that the new limit does not exceed the capacity, and pulls the
position back to the new limit when it lies beyond it. -/
def parcBuffer_SetLimit (buffer : PARCBuffer) (newLimit : Nat) : Except Fault PARCBuffer :=
  if newLimit ≤ parcBuffer_Capacity buffer then
    .ok { buffer with limit := newLimit, position := min buffer.position newLimit }
  else .error Fault.assertionFailed

/-- The bytes between the position and the limit: what a consumer of the buffer reads. -/
def parcBuffer_Contents (buffer : PARCBuffer) : List Byte :=
  (buffer.array.take buffer.limit).drop buffer.position

/-- The label types of a name segment that the tutorial distinguishes. -/
inductive CCNxNameLabelType where
  | NAME
  | CHUNK
  | other (code : Nat)
  deriving DecidableEq, Repr

/-- A name segment: a label type and a value. -/
structure CCNxNameSegment where
  type : CCNxNameLabelType
  value : List Byte
  deriving DecidableEq, Repr

/-- A name: the sequence of its segments. -/
abbrev CCNxName := List CCNxNameSegment

def ccnxNameSegment_GetType (segment : CCNxNameSegment) : CCNxNameLabelType := segment.type

/-- The text of a segment's value, one character per byte (URI escapes are not modelled). -/
def ccnxNameSegment_ToString (segment : CCNxNameSegment) : CStr :=
  segment.value.map (fun b => Char.ofNat b.val)

/-- The big-endian bytes of a 64-bit number without its leading zero bytes (at least one byte). -/
def ccnxNameSegmentNumber_Bytes (value : Nat) : List Byte :=
  match ((List.range 8).reverse.map (fun k => (Fin.ofNat (value / 256 ^ k) : Byte))).dropWhile
      (fun b => decide (b = 0)) with
  | [] => [0]
  | b :: bs => b :: bs

def ccnxNameSegmentNumber_Create (type : CCNxNameLabelType) (value : Nat) : CCNxNameSegment :=
  { type := type, value := ccnxNameSegmentNumber_Bytes value }

/-- The number held by a segment: its bytes read big-endian into a `uint64_t`. -/
def ccnxNameSegmentNumber_Value (segment : CCNxNameSegment) : Nat :=
  segment.value.foldl (fun result b => (result * 256 + b.val) % UINT64_SIZE) 0

def ccnxName_Create : CCNxName := []

def ccnxName_Copy (name : CCNxName) : CCNxName := name

def ccnxName_Append (name : CCNxName) (segment : CCNxNameSegment) : CCNxName := name ++ [segment]

def ccnxName_GetSegmentCount (name : CCNxName) : Nat := name.length

/-- An index beyond the last segment is trapped by the library. -/
def ccnxName_GetSegment (name : CCNxName) (index : Nat) : Except Fault CCNxNameSegment :=
  match name[index]? with
  | some segment => .ok segment
  | none => .error Fault.outOfBounds

/-- A content object: its name, its payload bytes and the final chunk number it carries. -/
structure CCNxContentObject where
  name : CCNxName
  payload : List Byte
  finalChunkNumber : Nat
  deriving DecidableEq, Repr

def parcArrayList_Size {α : Type} (array : List α) : Nat := array.length

def parcArrayList_Get {α : Type} (array : List α) (index : Nat) : Option α := array[index]?

def parcArrayList_Add {α : Type} (array : List α) (element : α) : List α := array ++ [element]

/-! ## The file-system collaborator (`tutorial_FileIO.c`) -/

/-- The state of the origin: the content of each readable file, by full path, and the
serialized listing of each directory. -/
structure FileSystem where
  file : CStr → Option (List Byte)
  directoryListing : CStr → List Byte

/-- Modelled from the spec: `tutorialFileIO_IsFileAvailable` of `tutorial_FileIO.c`
(`FileExists(path) → bool`, the file exists and can be read). -/
def tutorialFileIO_IsFileAvailable (fs : FileSystem) (filePath : CStr) : Bool :=
  (fs.file filePath).isSome

/-- Modelled from the spec: `tutorialFileIO_GetFileSize` of `tutorial_FileIO.c`
(`FileSize(path) → uint64`). -/
def tutorialFileIO_GetFileSize (fs : FileSystem) (filePath : CStr) : Nat :=
  match fs.file filePath with
  | some bytes => bytes.length % UINT64_SIZE
  | none => 0

/-- Modelled from the spec: `tutorialFileIO_GetFileChunk` of `tutorial_FileIO.c`
(`ReadChunk(origin, chunkSize, index)`: the bytes at byte offset `index * chunkSize`, of
length `min(chunkSize, remaining)`; absent when the origin is unavailable). -/
def tutorialFileIO_GetFileChunk (fs : FileSystem) (fileName : CStr) (chunkSize chunkNumber : Nat) :
    Option PARCBuffer :=
  match fs.file fileName with
  | some bytes =>
    let offset := chunkNumber * chunkSize
    let remaining := bytes.length - offset
    some (parcBuffer_Wrap ((bytes.drop offset).take (min chunkSize remaining)))
  | none => none

/-- Modelled from the spec: `tutorialFileIO_CreateDirectoryListing` of `tutorial_FileIO.c`
(`ListDirectoryEntries(path)`: the entries serialized into one buffer). -/
def tutorialFileIO_CreateDirectoryListing (fs : FileSystem) (directoryName : CStr) : PARCBuffer :=
  parcBuffer_Wrap (fs.directoryListing directoryName)

/-! ## NameCodec (`tutorial_Common.c`) -/

/-- The constant `tutorialCommon_CommandFetch`. -/
def tutorialCommon_CommandFetch : CStr := "fetch".toList

/-- The constant `tutorialCommon_CommandList`. -/
def tutorialCommon_CommandList : CStr := "list".toList

/-- The value of `n - k` computed in `size_t`, for `n` and `k` below `2^64`: the difference,
wrapped around `2^64` when `k` exceeds `n`. -/
def sizeSub (n k : Nat) : Nat := if k ≤ n then n - k else (n + UINT64_SIZE - k) % UINT64_SIZE

/-- The loop of `tutorialCommon_CreateWithBaseName`: `remaining` more iterations from index `i`,
each appending segment `i` of `name` to `result`. -/
def tutorialCommon_CreateWithBaseName.loop (name : CCNxName) :
    Nat → Nat → CCNxName → Except Fault CCNxName
  | 0, _, result => .ok result
  | remaining + 1, i, result =>
    match ccnxName_GetSegment name i with
    | .ok segment =>
      tutorialCommon_CreateWithBaseName.loop name remaining (i + 1) (ccnxName_Append result segment)
    | .error e => .error e

/-- The function `tutorialCommon_CreateWithBaseName`: the loop runs for `i` from 0 while
`i < numberOfSegmentsInName - 1`, the bound computed in `size_t`. -/
def tutorialCommon_CreateWithBaseName (name : CCNxName) : Except Fault CCNxName :=
  let numberOfSegmentsInName := ccnxName_GetSegmentCount name
  tutorialCommon_CreateWithBaseName.loop name (sizeSub numberOfSegmentsInName 1) 0 ccnxName_Create

/-- The function `tutorialCommon_GetChunkNumberFromName`. -/
def tutorialCommon_GetChunkNumberFromName (name : CCNxName) : Except Fault Nat :=
  let numberOfSegmentsInName := ccnxName_GetSegmentCount name
  match ccnxName_GetSegment name (sizeSub numberOfSegmentsInName 1) with
  | .ok chunkNumberSegment =>
    if ccnxNameSegment_GetType chunkNumberSegment = CCNxNameLabelType.CHUNK then
      .ok (ccnxNameSegmentNumber_Value chunkNumberSegment)
    else .error Fault.assertionFailed
  | .error e => .error e

/-- The function `tutorialCommon_CreateFileNameFromName`. -/
def tutorialCommon_CreateFileNameFromName (name : CCNxName) : Except Fault CStr :=
  match ccnxName_GetSegment name (sizeSub (ccnxName_GetSegmentCount name) 2) with
  | .ok fileNameSegment =>
    if ccnxNameSegment_GetType fileNameSegment = CCNxNameLabelType.NAME then
      .ok (ccnxNameSegment_ToString fileNameSegment)
    else .error Fault.assertionFailed
  | .error e => .error e

/-- The function `tutorialCommon_CreateCommandStringFromName`. -/
def tutorialCommon_CreateCommandStringFromName (name domainPrefix : CCNxName) : Except Fault CStr :=
  match ccnxName_GetSegment name (ccnxName_GetSegmentCount domainPrefix) with
  | .ok commandSegment =>
    if ccnxNameSegment_GetType commandSegment = CCNxNameLabelType.NAME then
      .ok (ccnxNameSegment_ToString commandSegment)
    else .error Fault.assertionFailed
  | .error e => .error e

/-! ## ChunkMath (`tutorial_Server.c`) -/

/-- The function `_getNumberOfChunksRequired(uint64_t dataLength, uint32_t chunkSize)`:
the quotient, plus one when the remainder is positive, the sum taken in `uint64_t`;
a computed value of 0 is replaced by 1. -/
def _getNumberOfChunksRequired (dataLength chunkSize : Nat) : Nat :=
  let chunks := ((dataLength / chunkSize) + (if dataLength % chunkSize > 0 then 1 else 0)) % UINT64_SIZE
  if chunks = 0 then 1 else chunks

/-- The function `_getFinalChunkNumberOfFile`. -/
def _getFinalChunkNumberOfFile (fs : FileSystem) (filePath : CStr) (chunkSize : Nat) : Nat :=
  let fileSize := tutorialFileIO_GetFileSize fs filePath
  let totalNumberOfChunksInFile := _getNumberOfChunksRequired fileSize chunkSize
  if totalNumberOfChunksInFile > 0 then (totalNumberOfChunksInFile - 1) else 0

/-! ## ResponseBuilder and ChunkCache (`tutorial_Server.c`) -/

/-- The function `_createContentObject`: the payload of the object is what the buffer holds
between its position and its limit. -/
def _createContentObject (name : CCNxName) (payload : PARCBuffer) (finalChunkNumber : Nat) :
    CCNxContentObject :=
  { name := name, payload := parcBuffer_Contents payload, finalChunkNumber := finalChunkNumber }

/-- The full path `snprintf` writes with the format `"%s/%s"`. -/
def fullFilePathOf (directoryPath fileName : CStr) : CStr := directoryPath ++ '/' :: fileName

/-- The function `_createFetchResponse` (on-demand mode). -/
def _createFetchResponse (fs : FileSystem) (name : CCNxName) (directoryPath fileName : CStr)
    (requestedChunkNumber : Nat) : Option CCNxContentObject :=
  let fullFilePath := fullFilePathOf directoryPath fileName
  if tutorialFileIO_IsFileAvailable fs fullFilePath then
    let finalChunkNumber := _getFinalChunkNumberOfFile fs fullFilePath tutorialCommon_ChunkSize
    match tutorialFileIO_GetFileChunk fs fullFilePath tutorialCommon_ChunkSize requestedChunkNumber with
    | some payload => some (_createContentObject name payload finalChunkNumber)
    | none => none
  else none

/-- The loop of `_chunkFileIntoMemory`: `remaining` more iterations from chunk `i`, each reading
chunk `i` and adding its content object, named `baseName` followed by the CHUNK segment `i`. -/
def _chunkFileIntoMemory.loop (fs : FileSystem) (fullFilePath : CStr) (baseName : CCNxName)
    (finalChunkNumber : Nat) : Nat → Nat → List CCNxContentObject → Except Fault (List CCNxContentObject)
  | 0, _, result => .ok result
  | remaining + 1, i, result =>
    match tutorialFileIO_GetFileChunk fs fullFilePath tutorialCommon_ChunkSize i with
    | some payload =>
      let chunkName := ccnxName_Append (ccnxName_Copy baseName)
        (ccnxNameSegmentNumber_Create CCNxNameLabelType.CHUNK i)
      let contentObject := _createContentObject chunkName payload finalChunkNumber
      _chunkFileIntoMemory.loop fs fullFilePath baseName finalChunkNumber remaining (i + 1)
        (parcArrayList_Add result contentObject)
    | none => .error Fault.unexpectedState

/-- The function `_chunkFileIntoMemory`: `none` is the `NULL` it returns for an unavailable
file; the loop runs for `i = 0, ..., finalChunkNumber`, that is `finalChunkNumber + 1` times. -/
def _chunkFileIntoMemory (fs : FileSystem) (fullFilePath : CStr) (name : CCNxName) :
    Except Fault (Option (List CCNxContentObject)) :=
  if tutorialFileIO_IsFileAvailable fs fullFilePath then
    let finalChunkNumber := _getFinalChunkNumberOfFile fs fullFilePath tutorialCommon_ChunkSize
    match tutorialCommon_CreateWithBaseName name with
    | .ok baseName =>
      match _chunkFileIntoMemory.loop fs fullFilePath baseName finalChunkNumber
          (finalChunkNumber + 1) 0 [] with
      | .ok result => .ok (some result)
      | .error e => .error e
    | .error e => .error e
  else .ok none

/-- An entry of the registry `_chunksByFileName` (the C struct `ChunkList`). -/
structure ChunkList where
  fileName : CStr
  chunks : List CCNxContentObject
  deriving DecidableEq, Repr

/-- The search loop of `_createFetchResponseWithPreChunking`: the first entry whose `fileName`
compares equal (`strcmp(...) == 0`) to the requested one, `none` for `NULL`. -/
def _createFetchResponseWithPreChunking.find : List ChunkList → CStr → Option ChunkList
  | [], _ => none
  | movieChunks :: rest, fileName =>
    if movieChunks.fileName = fileName then some movieChunks
    else _createFetchResponseWithPreChunking.find rest fileName

/-- The first half of `_createFetchResponseWithPreChunking`: find the entry for `fileName` in
the registry, or build it with `_chunkFileIntoMemory` and add it; returns the entry (if any)
and the registry after the call. -/
def _createFetchResponseWithPreChunking.getOrBuild (fs : FileSystem)
    (chunksByFileName : List ChunkList) (name : CCNxName) (directoryPath fileName : CStr) :
    Except Fault (Option ChunkList × List ChunkList) :=
  match _createFetchResponseWithPreChunking.find chunksByFileName fileName with
  | some movieChunks => .ok (some movieChunks, chunksByFileName)
  | none =>
    let fullFilePath := fullFilePathOf directoryPath fileName
    match _chunkFileIntoMemory fs fullFilePath name with
    | .ok (some chunkedContent) =>
      let movieChunks : ChunkList := { fileName := fileName, chunks := chunkedContent }
      .ok (some movieChunks, parcArrayList_Add chunksByFileName movieChunks)
    | .ok none => .ok (none, chunksByFileName)
    | .error e => .error e

/-- The function `_createFetchResponseWithPreChunking` (pre-chunked mode): the response, `none`
for `NULL`, and the registry `_chunksByFileName` after the call. -/
def _createFetchResponseWithPreChunking (fs : FileSystem) (chunksByFileName : List ChunkList)
    (name : CCNxName) (directoryPath fileName : CStr) (requestedChunkNumber : Nat) :
    Except Fault (Option CCNxContentObject × List ChunkList) :=
  match _createFetchResponseWithPreChunking.getOrBuild fs chunksByFileName name directoryPath
      fileName with
  | .ok (some movieChunks, registry) =>
    if requestedChunkNumber < parcArrayList_Size movieChunks.chunks then
      .ok (parcArrayList_Get movieChunks.chunks requestedChunkNumber, registry)
    else .ok (none, registry)
  | .ok (none, registry) => .ok (none, registry)
  | .error e => .error e

/-- The function `_createListResponse`. -/
def _createListResponse (fs : FileSystem) (name : CCNxName) (directoryPath : CStr)
    (requestedChunkNumber : Nat) : Except Fault (Option CCNxContentObject) :=
  let directoryList := tutorialFileIO_CreateDirectoryListing fs directoryPath
  let totalChunksInDirList :=
    _getNumberOfChunksRequired (parcBuffer_Limit directoryList) tutorialCommon_ChunkSize
  if requestedChunkNumber < totalChunksInDirList then
    match parcBuffer_SetPosition directoryList
        ((requestedChunkNumber * tutorialCommon_ChunkSize) % UINT64_SIZE) with
    | .ok positioned =>
      let chunkLen := parcBuffer_Remaining positioned
      let windowed :=
        if chunkLen > tutorialCommon_ChunkSize then
          parcBuffer_SetLimit positioned
            ((parcBuffer_Position positioned + tutorialCommon_ChunkSize) % UINT64_SIZE)
        else .ok positioned
      match windowed with
      | .ok payload =>
        let finalChunkNumber := if totalChunksInDirList > 0 then totalChunksInDirList - 1 else 0
        .ok (some (_createContentObject name payload finalChunkNumber))
      | .error e => .error e
    | .error e => .error e
  else .ok none

/-- The command a request is dispatched to. -/
inductive Dispatch where
  | list
  | fetch
  | nothing
  deriving DecidableEq, Repr

/-- The guard chain of `_createInterestResponse`: `strncasecmp` against the list command
first, then against the fetch command, each over `strlen(command)` characters. -/
def _createInterestResponse.dispatch (command : CStr) : Dispatch :=
  if strncasecmp command tutorialCommon_CommandList (strlen command) = 0 then Dispatch.list
  else if strncasecmp command tutorialCommon_CommandFetch (strlen command) = 0 then Dispatch.fetch
  else Dispatch.nothing

/-- The function `_createInterestResponse`, on the name of the interest: the response, `none`
for `NULL`, and the registry `_chunksByFileName` after the call. -/
def _createInterestResponse (fs : FileSystem) (chunksByFileName : List ChunkList)
    (interestName domainPrefix : CCNxName) (directoryPath : CStr) (doPreChunk : Bool) :
    Except Fault (Option CCNxContentObject × List ChunkList) :=
  match tutorialCommon_CreateCommandStringFromName interestName domainPrefix with
  | .error e => .error e
  | .ok command =>
    match tutorialCommon_GetChunkNumberFromName interestName with
    | .error e => .error e
    | .ok requestedChunkNumber =>
      match _createInterestResponse.dispatch command with
      | Dispatch.list =>
        match _createListResponse fs interestName directoryPath requestedChunkNumber with
        | .ok result => .ok (result, chunksByFileName)
        | .error e => .error e
      | Dispatch.fetch =>
        match tutorialCommon_CreateFileNameFromName interestName with
        | .error e => .error e
        | .ok fileName =>
          if doPreChunk then
            _createFetchResponseWithPreChunking fs chunksByFileName interestName directoryPath
              fileName requestedChunkNumber
          else
            .ok (_createFetchResponse fs interestName directoryPath fileName requestedChunkNumber,
              chunksByFileName)
      | Dispatch.nothing => .ok (none, chunksByFileName)

/-- An interest the portal delivers, with the state of the origin at the time it is answered. -/
structure InboundInterest where
  origin : FileSystem
  name : CCNxName

/-- The loop of `_receiveAndAnswerInterests` over the interests the portal delivers, in order:
each is answered by `_createInterestResponse` against the registry the previous ones left;
`result` turns true once an interest has been responded to. Returns `result` and the registry
`_chunksByFileName` after the last interest. -/
def _receiveAndAnswerInterests (domainPrefix : CCNxName) (directoryPath : CStr) (doPreChunk : Bool) :
    List InboundInterest → Bool → List ChunkList → Except Fault (Bool × List ChunkList)
  | [], result, chunksByFileName => .ok (result, chunksByFileName)
  | interest :: rest, result, chunksByFileName =>
    match _createInterestResponse interest.origin chunksByFileName interest.name domainPrefix
        directoryPath doPreChunk with
    | .ok (response, registry) =>
      _receiveAndAnswerInterests domainPrefix directoryPath doPreChunk rest
        (if response.isSome then true else result) registry
    | .error e => .error e

/-! ## Vocabulary of the specification -/

/-- The bytes of `origin` at the offsets `a ≤ k < b`. -/
def byteRange (origin : List Byte) (a b : Nat) : List Byte := (origin.drop a).take (b - a)

/-- The content object for chunk `j` of a file with content `bytes`: named `baseName` followed
by the CHUNK segment `j`, carrying the bytes `[j*1200, min(j*1200 + 1200, length))`. -/
def fileChunkObject (baseName : CCNxName) (bytes : List Byte) (finalChunkNumber j : Nat) :
    CCNxContentObject :=
  { name := baseName ++ [ccnxNameSegmentNumber_Create CCNxNameLabelType.CHUNK j],
    payload := byteRange bytes (j * 1200) (min (j * 1200 + 1200) bytes.length),
    finalChunkNumber := finalChunkNumber }

/-- The response the specification prescribes for index `j` of an origin with content `bytes`:
up to the final chunk number a chunk with the bytes `[j*1200, min(j*1200 + 1200, length))` and
that final chunk number, beyond it nothing. -/
def ServesChunk (bytes : List Byte) (j : Nat) (response : Option CCNxContentObject) : Prop :=
  match response with
  | some c =>
    j ≤ _getNumberOfChunksRequired bytes.length 1200 - 1
      ∧ c.payload = byteRange bytes (j * 1200) (min (j * 1200 + 1200) bytes.length)
      ∧ c.finalChunkNumber = _getNumberOfChunksRequired bytes.length 1200 - 1
  | none => _getNumberOfChunksRequired bytes.length 1200 - 1 < j

instance (bytes : List Byte) (j : Nat) (response : Option CCNxContentObject) :
    Decidable (ServesChunk bytes j response) := by
  unfold ServesChunk
  split <;> infer_instance

/-- The token `t`, compared case-insensitively over its own length, is a prefix of `command`. -/
def IsCommandPrefix (t command : CStr) : Prop :=
  t.map Char.toLower <+: command.map Char.toLower

instance (t command : CStr) : Decidable (IsCommandPrefix t command) := by
  unfold IsCommandPrefix
  infer_instance

/-- The invariant of a cache entry: the sequence is not empty, and the chunk at position `i`
carries the final chunk number `length - 1`, has a name that ends in the CHUNK segment `i`, and
that name yields chunk number `i`. -/
def EntryInvariant (entry : ChunkList) : Prop :=
  1 ≤ entry.chunks.length
  ∧ ∀ i, (h : i < entry.chunks.length) →
      (entry.chunks.get ⟨i, h⟩).finalChunkNumber = entry.chunks.length - 1
      ∧ (entry.chunks.get ⟨i, h⟩).name.getLast?
          = some (ccnxNameSegmentNumber_Create CCNxNameLabelType.CHUNK i)
      ∧ (tutorialCommon_GetChunkNumberFromName (entry.chunks.get ⟨i, h⟩).name).toOption = some i

instance (entry : ChunkList) : Decidable (EntryInvariant entry) := by
  unfold EntryInvariant
  infer_instance

/-! ## Concrete origins used to instantiate the theorems -/

/-- An origin with a 3000-byte listing for every directory, a 2400-byte file `/srv/movie`,
an empty file `/srv/empty`, and no other file. -/
def exampleOrigin : FileSystem :=
  { file := fun path =>
      if path = "/srv/movie".toList then some (List.replicate 2400 7)
      else if path = "/srv/empty".toList then some []
      else none,
    directoryListing := fun _ => List.replicate 3000 1 }

/-- An origin with no file at all and empty listings. -/
def emptyOrigin : FileSystem :=
  { file := fun _ => none, directoryListing := fun _ => [] }

/-- A NAME segment holding the bytes of `text`. -/
def nameSegment (text : String) : CCNxNameSegment :=
  { type := CCNxNameLabelType.NAME, value := text.toList.map (fun c => Fin.ofNat c.toNat) }

/-- The default domain prefix `lci:/ccnx/tutorial`. -/
def exampleDomainPrefix : CCNxName := [nameSegment "ccnx", nameSegment "tutorial"]

/-- The request name `lci:/ccnx/tutorial/fetch/movie/<chunk 0>`. -/
def exampleFetchName : CCNxName :=
  exampleDomainPrefix ++ [nameSegment "fetch", nameSegment "movie",
    ccnxNameSegmentNumber_Create CCNxNameLabelType.CHUNK 0]

/-- The request name `lci:/ccnx/tutorial/fetch/empty/<chunk 0>`. -/
def exampleFetchEmptyName : CCNxName :=
  exampleDomainPrefix ++ [nameSegment "fetch", nameSegment "empty",
    ccnxNameSegmentNumber_Create CCNxNameLabelType.CHUNK 0]

/-- The registry entry built for the empty file `/srv/empty` of `exampleOrigin`. -/
def exampleEntry : ChunkList :=
  { fileName := "empty".toList,
    chunks := [fileChunkObject (exampleDomainPrefix ++ [nameSegment "fetch", nameSegment "empty"])
      [] 0 0] }

/-- The request name `lci:/ccnx/tutorial/Li/<chunk 0>`: an abbreviated list command. -/
def exampleShortListName : CCNxName :=
  exampleDomainPrefix ++ [nameSegment "Li", ccnxNameSegmentNumber_Create CCNxNameLabelType.CHUNK 0]

/-- The request name `lci:/ccnx/tutorial/bogus/<chunk 0>`: an unrecognized command. -/
def exampleBogusName : CCNxName :=
  exampleDomainPrefix ++ [nameSegment "bogus", ccnxNameSegmentNumber_Create CCNxNameLabelType.CHUNK 0]

/-- The request name `lci:/ccnx/tutorial/bogus`: an unrecognized command and no chunk segment. -/
def exampleBogusNameNoChunk : CCNxName :=
  exampleDomainPrefix ++ [nameSegment "bogus"]

/-- Three interests for `/srv/empty`: while the file does not exist, once it exists, and after
it has been removed again. -/
def exampleInterests : List InboundInterest :=
  [{ origin := emptyOrigin, name := exampleFetchEmptyName },
   { origin := exampleOrigin, name := exampleFetchEmptyName },
   { origin := emptyOrigin, name := exampleFetchEmptyName }]

/-- The request name `lci:/ccnx/tutorial/fetch/other/empty/<chunk 0>`: the same target file
token as `exampleFetchEmptyName` under another base name. -/
def exampleOtherBaseName : CCNxName :=
  exampleDomainPrefix ++ [nameSegment "fetch", nameSegment "other", nameSegment "empty",
    ccnxNameSegmentNumber_Create CCNxNameLabelType.CHUNK 0]

/-- The registry entry built for the 2400-byte file `/srv/movie` of `exampleOrigin` by the
request `exampleFetchName`: two chunks. -/
def exampleMovieEntry : ChunkList :=
  { fileName := "movie".toList,
    chunks := (List.range 2).map
      (fileChunkObject (exampleDomainPrefix ++ [nameSegment "fetch", nameSegment "movie"])
        (List.replicate 2400 7) 1) }

/-- The request name `lci:/ccnx/tutorial/fetch/empty/<chunk 0>` with chunk number 0 written in
two bytes, `00 00`, instead of the one byte `ccnxNameSegmentNumber_Create` writes. -/
def exampleTwoByteChunkName : CCNxName :=
  exampleDomainPrefix ++ [nameSegment "fetch", nameSegment "empty",
    { type := CCNxNameLabelType.CHUNK, value := [0, 0] }]

/-! ## Theorems -/

/-- The `uint64_t` sum in `_getNumberOfChunksRequired` never wraps. -/
theorem chunks_sum_lt (dataLength chunkSize : Nat) (hd : dataLength < UINT64_SIZE)
    (hc : 0 < chunkSize) :
    (dataLength / chunkSize) + (if dataLength % chunkSize > 0 then 1 else 0) < UINT64_SIZE := by
  unfold UINT64_SIZE at *
  by_cases h1 : chunkSize = 1
  · subst h1
    simp [Nat.mod_one]
    exact hd
  · have h2 : 2 ≤ chunkSize := by omega
    have : dataLength / chunkSize ≤ dataLength / 2 := Nat.div_le_div_left h2 (by decide)
    split <;> omega

/-- The quotient-plus-remainder-flag form of the ceiling. -/
theorem div_add_flag_eq (d c : Nat) (hc : 0 < c) :
    d / c + (if d % c > 0 then 1 else 0) = (d + c - 1) / c := by
  have hdm := Nat.div_add_mod d c
  have hlt := Nat.mod_lt d hc
  generalize d / c = q at *
  generalize d % c = r at *
  subst hdm
  split
  · have hre : c * q + r + c - 1 = (r - 1) + c * (q + 1) := by
      rw [Nat.mul_add]; omega
    rw [hre, Nat.add_mul_div_left _ _ hc, Nat.div_eq_of_lt (by omega)]
    omega
  · have hr : r = 0 := by omega
    subst hr
    have hre : c * q + 0 + c - 1 = (c - 1) + c * q := by omega
    rw [hre, Nat.add_mul_div_left _ _ hc, Nat.div_eq_of_lt (by omega)]
    omega

/-- The rational ceiling of `d / c` is `(d + c - 1) / c` in natural-number division. -/
theorem ceil_div_eq (d c : Nat) (hc : 0 < c) :
    ⌈(d : ℚ) / (c : ℚ)⌉₊ = (d + c - 1) / c := by
  have hcq : (0 : ℚ) < (c : ℚ) := by exact_mod_cast hc
  apply eq_of_forall_ge_iff
  intro n
  rw [Nat.ceil_le, div_le_iff₀ hcq, ← Nat.lt_succ_iff, Nat.div_lt_iff_lt_mul hc]
  constructor
  · intro h
    have h2 : d ≤ n * c := by exact_mod_cast h
    have : (n + 1) * c = n * c + c := by ring
    rw [Nat.succ_eq_add_one, this]; omega
  · intro h
    have : (n + 1) * c = n * c + c := by ring
    rw [Nat.succ_eq_add_one, this] at h
    have h2 : d ≤ n * c := by omega
    exact_mod_cast h2

/-- Closed form of `_getNumberOfChunksRequired` on machine-representable arguments. -/
theorem getNumberOfChunksRequired_closed (d c : Nat) (hd : d < UINT64_SIZE) (hc : 0 < c) :
    _getNumberOfChunksRequired d c = max 1 ((d + c - 1) / c) := by
  unfold _getNumberOfChunksRequired
  simp only []
  rw [Nat.mod_eq_of_lt (chunks_sum_lt d c hd hc), div_add_flag_eq d c hc]
  generalize (d + c - 1) / c = k
  split <;> omega

/-- C1: for every `uint64_t` dataLength and non-zero `uint32_t` chunkSize,
`_getNumberOfChunksRequired` equals `max(1, ceil(dataLength / chunkSize))`, the 64-bit sum
inside it does not wrap, the result is at least 1, and it is exactly 1 for dataLength 0. -/
theorem getNumberOfChunksRequired_spec (dataLength chunkSize : Nat)
    (hd : dataLength < UINT64_SIZE) (hc0 : 0 < chunkSize) (hc : chunkSize < UINT32_SIZE) :
    _getNumberOfChunksRequired dataLength chunkSize
        = max 1 ⌈(dataLength : ℚ) / (chunkSize : ℚ)⌉₊
      ∧ (dataLength / chunkSize) + (if dataLength % chunkSize > 0 then 1 else 0) < UINT64_SIZE
      ∧ 1 ≤ _getNumberOfChunksRequired dataLength chunkSize
      ∧ _getNumberOfChunksRequired dataLength chunkSize < UINT64_SIZE
      ∧ _getNumberOfChunksRequired 0 chunkSize = 1 := by
  have hclosed := getNumberOfChunksRequired_closed dataLength chunkSize hd hc0
  have hsum := chunks_sum_lt dataLength chunkSize hd hc0
  refine ⟨?_, hsum, ?_, ?_, ?_⟩
  · rw [hclosed, ceil_div_eq dataLength chunkSize hc0]
  · rw [hclosed]; exact le_max_left 1 _
  · rw [hclosed, ← div_add_flag_eq dataLength chunkSize hc0]
    have h1 : 1 < UINT64_SIZE := by unfold UINT64_SIZE; decide
    exact max_lt h1 hsum
  · rw [getNumberOfChunksRequired_closed 0 chunkSize (by unfold UINT64_SIZE; decide) hc0]
    have h0 : (0 + chunkSize - 1) / chunkSize = 0 := Nat.div_eq_of_lt (by omega)
    rw [h0]; rfl

/-- Witness for C1: a 3000-byte origin in chunks of 1200. -/
theorem getNumberOfChunksRequired_spec_witness :
    _getNumberOfChunksRequired 3000 1200 = max 1 ⌈((3000 : Nat) : ℚ) / ((1200 : Nat) : ℚ)⌉₊
      ∧ (3000 / 1200) + (if 3000 % 1200 > 0 then 1 else 0) < UINT64_SIZE
      ∧ 1 ≤ _getNumberOfChunksRequired 3000 1200
      ∧ _getNumberOfChunksRequired 3000 1200 < UINT64_SIZE
      ∧ _getNumberOfChunksRequired 0 1200 = 1 :=
  getNumberOfChunksRequired_spec 3000 1200 (by unfold UINT64_SIZE; decide) (by decide)
    (by unfold UINT32_SIZE; decide)

/-- An index is below the chunk count exactly when it is 0 or starts inside the data. -/
theorem lt_chunksRequired_iff (L i : Nat) (hL : L < UINT64_SIZE) :
    i < _getNumberOfChunksRequired L tutorialCommon_ChunkSize ↔ (i = 0 ∨ i * 1200 < L) := by
  rw [getNumberOfChunksRequired_closed L _ hL (by decide)]
  unfold tutorialCommon_ChunkSize
  omega

/-- The window a positioned and limited buffer exposes is a byte range of its array. -/
theorem drop_take_eq_byteRange (l : List Byte) (a b : Nat) :
    (l.take b).drop a = byteRange l a b := by
  unfold byteRange
  rw [List.drop_take]

/-- What `_createListResponse` returns, in closed form. -/
theorem createListResponse_eq (fs : FileSystem) (name : CCNxName) (directoryPath : CStr) (i : Nat)
    (hL : (fs.directoryListing directoryPath).length < UINT64_SIZE) :
    _createListResponse fs name directoryPath i =
      .ok (if i < _getNumberOfChunksRequired (fs.directoryListing directoryPath).length
              tutorialCommon_ChunkSize then
            some { name := name,
                   payload := byteRange (fs.directoryListing directoryPath) (i * 1200)
                     (min (i * 1200 + 1200) (fs.directoryListing directoryPath).length),
                   finalChunkNumber := _getNumberOfChunksRequired
                     (fs.directoryListing directoryPath).length tutorialCommon_ChunkSize - 1 }
          else none) := by
  generalize hl : fs.directoryListing directoryPath = listing at hL ⊢
  unfold _createListResponse
  simp only [tutorialFileIO_CreateDirectoryListing, parcBuffer_Wrap, parcBuffer_Limit, hl]
  by_cases hi : i < _getNumberOfChunksRequired listing.length tutorialCommon_ChunkSize
  · have hpos := (lt_chunksRequired_iff listing.length i hL).mp hi
    have htot : 0 < _getNumberOfChunksRequired listing.length tutorialCommon_ChunkSize := by omega
    have hle : i * 1200 ≤ listing.length := by omega
    have hU : UINT64_SIZE = 18446744073709551616 := by unfold UINT64_SIZE; norm_num
    have hmod : (i * 1200) % UINT64_SIZE = i * 1200 := Nat.mod_eq_of_lt (by omega)
    unfold tutorialCommon_ChunkSize at hi htot ⊢
    have htot' : _getNumberOfChunksRequired listing.length 1200 > 0 := htot
    simp only [hi, if_true, htot', hmod, parcBuffer_SetPosition, hle,
      parcBuffer_Remaining, parcBuffer_Position]
    by_cases hlen : listing.length - i * 1200 > 1200
    · have hmod2 : (i * 1200 + 1200) % UINT64_SIZE = i * 1200 + 1200 :=
        Nat.mod_eq_of_lt (by omega)
      have hcap : i * 1200 + 1200 ≤ listing.length := by omega
      simp only [hlen, if_true, hmod2, parcBuffer_SetLimit, parcBuffer_Capacity, hcap,
        _createContentObject, parcBuffer_Contents]
      have hmin : min (i * 1200) (i * 1200 + 1200) = i * 1200 := by omega
      have hmin2 : min (i * 1200 + 1200) listing.length = i * 1200 + 1200 := by omega
      rw [hmin, hmin2, drop_take_eq_byteRange]
    · simp only [hlen, if_false, _createContentObject, parcBuffer_Contents]
      have hmin2 : min (i * 1200 + 1200) listing.length = listing.length := by omega
      rw [hmin2, drop_take_eq_byteRange]
  · simp only [hi, if_false]

/-- Length of a byte range. -/
theorem length_byteRange (l : List Byte) (a b : Nat) :
    (byteRange l a b).length = min (b - a) (l.length - a) := by
  unfold byteRange
  rw [List.length_take, List.length_drop]

/-- C2: the final chunk number computed by `_getFinalChunkNumberOfFile`, and the one the list
path of `_createListResponse` puts in its response, is the number of chunks required minus
one (so the two differ by exactly one), it is 0 for a zero-length origin, and the number of
chunks required is positive, so the guard that floors at 0 is never the branch taken. -/
theorem finalChunkNumber_spec (fs : FileSystem) (filePath directoryPath : CStr)
    (name : CCNxName) (i : Nat)
    (hL : (fs.directoryListing directoryPath).length < UINT64_SIZE)
    (hi : i < _getNumberOfChunksRequired (fs.directoryListing directoryPath).length
      tutorialCommon_ChunkSize) :
    (0 < _getNumberOfChunksRequired (tutorialFileIO_GetFileSize fs filePath)
        tutorialCommon_ChunkSize
      ∧ _getFinalChunkNumberOfFile fs filePath tutorialCommon_ChunkSize
          = _getNumberOfChunksRequired (tutorialFileIO_GetFileSize fs filePath)
              tutorialCommon_ChunkSize - 1
      ∧ _getFinalChunkNumberOfFile fs filePath tutorialCommon_ChunkSize + 1
          = _getNumberOfChunksRequired (tutorialFileIO_GetFileSize fs filePath)
              tutorialCommon_ChunkSize
      ∧ (tutorialFileIO_GetFileSize fs filePath = 0 →
          _getFinalChunkNumberOfFile fs filePath tutorialCommon_ChunkSize = 0))
    ∧ (0 < _getNumberOfChunksRequired (fs.directoryListing directoryPath).length
        tutorialCommon_ChunkSize
      ∧ ∃ c, _createListResponse fs name directoryPath i = .ok (some c)
          ∧ c.finalChunkNumber + 1 = _getNumberOfChunksRequired
              (fs.directoryListing directoryPath).length tutorialCommon_ChunkSize
          ∧ ((fs.directoryListing directoryPath).length = 0 → c.finalChunkNumber = 0)) := by
  have hsize : tutorialFileIO_GetFileSize fs filePath < UINT64_SIZE := by
    unfold tutorialFileIO_GetFileSize
    have hpos : 0 < UINT64_SIZE := by unfold UINT64_SIZE; decide
    split
    · exact Nat.mod_lt _ hpos
    · exact hpos
  have hfile := getNumberOfChunksRequired_closed (tutorialFileIO_GetFileSize fs filePath)
    tutorialCommon_ChunkSize hsize (by decide)
  have hlist := getNumberOfChunksRequired_closed (fs.directoryListing directoryPath).length
    tutorialCommon_ChunkSize hL (by decide)
  refine ⟨⟨?_, ?_, ?_, ?_⟩, ?_, ?_⟩
  · rw [hfile]; omega
  · unfold _getFinalChunkNumberOfFile
    simp only []
    split
    · rfl
    · omega
  · unfold _getFinalChunkNumberOfFile
    simp only []
    rw [hfile]
    split <;> omega
  · intro h0
    unfold _getFinalChunkNumberOfFile
    simp only []
    rw [hfile, h0]
    unfold tutorialCommon_ChunkSize
    decide
  · rw [hlist]; omega
  · rw [createListResponse_eq fs name directoryPath i hL, if_pos hi]
    refine ⟨_, rfl, ?_, ?_⟩
    · simp only []
      rw [hlist]; omega
    · intro h0
      simp only []
      rw [hlist, h0]
      unfold tutorialCommon_ChunkSize
      decide

/-- Witness for C2: the 2400-byte file and the 3000-byte listing of `exampleOrigin`. -/
theorem finalChunkNumber_spec_witness :
    (0 < _getNumberOfChunksRequired (tutorialFileIO_GetFileSize exampleOrigin "/srv/movie".toList)
        tutorialCommon_ChunkSize
      ∧ _getFinalChunkNumberOfFile exampleOrigin "/srv/movie".toList tutorialCommon_ChunkSize
          = _getNumberOfChunksRequired (tutorialFileIO_GetFileSize exampleOrigin "/srv/movie".toList)
              tutorialCommon_ChunkSize - 1
      ∧ _getFinalChunkNumberOfFile exampleOrigin "/srv/movie".toList tutorialCommon_ChunkSize + 1
          = _getNumberOfChunksRequired (tutorialFileIO_GetFileSize exampleOrigin "/srv/movie".toList)
              tutorialCommon_ChunkSize
      ∧ (tutorialFileIO_GetFileSize exampleOrigin "/srv/movie".toList = 0 →
          _getFinalChunkNumberOfFile exampleOrigin "/srv/movie".toList tutorialCommon_ChunkSize = 0))
    ∧ (0 < _getNumberOfChunksRequired (exampleOrigin.directoryListing "/srv".toList).length
        tutorialCommon_ChunkSize
      ∧ ∃ c, _createListResponse exampleOrigin exampleDomainPrefix "/srv".toList 2 = .ok (some c)
          ∧ c.finalChunkNumber + 1 = _getNumberOfChunksRequired
              (exampleOrigin.directoryListing "/srv".toList).length tutorialCommon_ChunkSize
          ∧ ((exampleOrigin.directoryListing "/srv".toList).length = 0 → c.finalChunkNumber = 0)) :=
  finalChunkNumber_spec exampleOrigin "/srv/movie".toList "/srv".toList exampleDomainPrefix 2
    (by simp only [exampleOrigin, List.length_replicate]; unfold UINT64_SIZE; decide)
    (by simp only [exampleOrigin, List.length_replicate]; decide)

/-- C3: for a serialized listing of length `L` and a requested index `i`, `_createListResponse`
returns a chunk exactly when `i ≤ ChunksRequired(L, 1200) - 1`; the chunk then has the
request's name, the listing bytes `[i*1200, min(i*1200 + 1200, L))` as payload (at most 1200
of them) and that final chunk number; otherwise the response is absent. A 3000-byte listing
gives three chunks of 1200, 1200 and 600 bytes with final chunk number 2, and nothing at 3. -/
theorem createListResponse_spec (fs : FileSystem) (name : CCNxName) (directoryPath : CStr)
    (i : Nat) (hL : (fs.directoryListing directoryPath).length < UINT64_SIZE) :
    ((∃ c, _createListResponse fs name directoryPath i = .ok (some c))
        ↔ i ≤ _getNumberOfChunksRequired (fs.directoryListing directoryPath).length 1200 - 1)
    ∧ (i ≤ _getNumberOfChunksRequired (fs.directoryListing directoryPath).length 1200 - 1 →
        _createListResponse fs name directoryPath i = .ok (some
          { name := name,
            payload := byteRange (fs.directoryListing directoryPath) (i * 1200)
              (min (i * 1200 + 1200) (fs.directoryListing directoryPath).length),
            finalChunkNumber :=
              _getNumberOfChunksRequired (fs.directoryListing directoryPath).length 1200 - 1 }))
    ∧ (byteRange (fs.directoryListing directoryPath) (i * 1200)
        (min (i * 1200 + 1200) (fs.directoryListing directoryPath).length)).length ≤ 1200
    ∧ (_getNumberOfChunksRequired (fs.directoryListing directoryPath).length 1200 - 1 < i →
        _createListResponse fs name directoryPath i = .ok none)
    ∧ ((fs.directoryListing directoryPath).length = 3000 →
        ∃ c0 c1 c2,
          _createListResponse fs name directoryPath 0 = .ok (some c0)
          ∧ _createListResponse fs name directoryPath 1 = .ok (some c1)
          ∧ _createListResponse fs name directoryPath 2 = .ok (some c2)
          ∧ _createListResponse fs name directoryPath 3 = .ok none
          ∧ c0.payload.length = 1200 ∧ c1.payload.length = 1200 ∧ c2.payload.length = 600
          ∧ c0.finalChunkNumber = 2 ∧ c1.finalChunkNumber = 2 ∧ c2.finalChunkNumber = 2) := by
  have hclosed := getNumberOfChunksRequired_closed (fs.directoryListing directoryPath).length
    1200 hL (by decide)
  have heq := fun j => createListResponse_eq fs name directoryPath j hL
  unfold tutorialCommon_ChunkSize at heq
  refine ⟨?_, ?_, ?_, ?_, ?_⟩
  · rw [heq i]
    constructor
    · rintro ⟨c, hc⟩
      by_cases hi : i < _getNumberOfChunksRequired (fs.directoryListing directoryPath).length 1200
      · omega
      · rw [if_neg hi] at hc
        cases hc
    · intro hi
      have hi2 : i < _getNumberOfChunksRequired (fs.directoryListing directoryPath).length 1200 := by
        omega
      rw [if_pos hi2]
      exact ⟨_, rfl⟩
  · intro hi
    have hi2 : i < _getNumberOfChunksRequired (fs.directoryListing directoryPath).length 1200 := by
      omega
    rw [heq i, if_pos hi2]
  · rw [length_byteRange]
    omega
  · intro hi
    have hi2 : ¬ i < _getNumberOfChunksRequired (fs.directoryListing directoryPath).length 1200 := by
      omega
    rw [heq i, if_neg hi2]
  · intro h3000
    rw [heq 0, heq 1, heq 2, heq 3]
    rw [h3000] at hclosed ⊢
    have h3 : _getNumberOfChunksRequired 3000 1200 = 3 := by rw [hclosed]; decide
    rw [h3]
    refine ⟨_, _, _, rfl, rfl, rfl, rfl, ?_, ?_, ?_, rfl, rfl, rfl⟩
    · simp only [length_byteRange, h3000]; decide
    · simp only [length_byteRange, h3000]; decide
    · simp only [length_byteRange, h3000]; decide

/-- Witness for C3: chunk 2 of the 3000-byte listing of `exampleOrigin`. -/
theorem createListResponse_spec_witness :
    ((∃ c, _createListResponse exampleOrigin exampleDomainPrefix "/srv".toList 2 = .ok (some c))
        ↔ 2 ≤ _getNumberOfChunksRequired (exampleOrigin.directoryListing "/srv".toList).length 1200 - 1)
    ∧ (2 ≤ _getNumberOfChunksRequired (exampleOrigin.directoryListing "/srv".toList).length 1200 - 1 →
        _createListResponse exampleOrigin exampleDomainPrefix "/srv".toList 2 = .ok (some
          { name := exampleDomainPrefix,
            payload := byteRange (exampleOrigin.directoryListing "/srv".toList) (2 * 1200)
              (min (2 * 1200 + 1200) (exampleOrigin.directoryListing "/srv".toList).length),
            finalChunkNumber :=
              _getNumberOfChunksRequired (exampleOrigin.directoryListing "/srv".toList).length 1200 - 1 }))
    ∧ (byteRange (exampleOrigin.directoryListing "/srv".toList) (2 * 1200)
        (min (2 * 1200 + 1200) (exampleOrigin.directoryListing "/srv".toList).length)).length ≤ 1200
    ∧ (_getNumberOfChunksRequired (exampleOrigin.directoryListing "/srv".toList).length 1200 - 1 < 2 →
        _createListResponse exampleOrigin exampleDomainPrefix "/srv".toList 2 = .ok none)
    ∧ ((exampleOrigin.directoryListing "/srv".toList).length = 3000 →
        ∃ c0 c1 c2,
          _createListResponse exampleOrigin exampleDomainPrefix "/srv".toList 0 = .ok (some c0)
          ∧ _createListResponse exampleOrigin exampleDomainPrefix "/srv".toList 1 = .ok (some c1)
          ∧ _createListResponse exampleOrigin exampleDomainPrefix "/srv".toList 2 = .ok (some c2)
          ∧ _createListResponse exampleOrigin exampleDomainPrefix "/srv".toList 3 = .ok none
          ∧ c0.payload.length = 1200 ∧ c1.payload.length = 1200 ∧ c2.payload.length = 600
          ∧ c0.finalChunkNumber = 2 ∧ c1.finalChunkNumber = 2 ∧ c2.finalChunkNumber = 2) :=
  createListResponse_spec exampleOrigin exampleDomainPrefix "/srv".toList 2
    (by simp only [exampleOrigin, List.length_replicate]; unfold UINT64_SIZE; decide)

/-- Cutting a list into `n` consecutive pieces of `c` elements covers it when `n * c` reaches
its length, and putting the pieces back in order gives the list. -/
theorem flatten_pieces {α : Type} (c : Nat) :
    ∀ (n : Nat) (l : List α), l.length ≤ n * c →
      ((List.range n).map (fun i => (l.drop (i * c)).take c)).flatten = l := by
  intro n
  induction n with
  | zero =>
    intro l hl
    have h0 : l.length = 0 := by omega
    simp [List.length_eq_zero.mp h0]
  | succ n ih =>
    intro l hl
    rw [List.range_succ_eq_map, List.map_cons, List.map_map, List.flatten_cons]
    have hfun : ((fun i => List.take c (List.drop (i * c) l)) ∘ Nat.succ)
        = fun i => List.take c (List.drop (i * c) (l.drop c)) := by
      funext i
      simp only [Function.comp, Nat.succ_eq_add_one, List.drop_drop]
      congr 2
      ring
    have hlen : (l.drop c).length ≤ n * c := by
      rw [List.length_drop]
      have hmul : (n + 1) * c = n * c + c := by ring
      omega
    rw [hfun, ih (l.drop c) hlen]
    simp

/-- A byte range that ends at `min (a + c) length` is the piece of `c` elements at `a`. -/
theorem byteRange_min (l : List Byte) (a c : Nat) :
    byteRange l a (min (a + c) l.length) = (l.drop a).take c := by
  unfold byteRange
  rw [List.take_eq_take, List.length_drop]
  omega

/-- The pieces of 1200 bytes of a list, put back in order, give the list. -/
theorem flatten_byteRanges (l : List Byte) (n : Nat) (hn : l.length ≤ n * 1200) :
    ((List.range n).map
      (fun i => byteRange l (i * 1200) (min (i * 1200 + 1200) l.length))).flatten = l := by
  have hfun : (fun i => byteRange l (i * 1200) (min (i * 1200 + 1200) l.length))
      = fun i => (l.drop (i * 1200)).take 1200 := by
    funext i
    exact byteRange_min l (i * 1200) 1200
  rw [hfun]
  exact flatten_pieces 1200 n l hn

/-- The chunk count times the chunk size covers the data. -/
theorem le_chunksRequired_mul (L : Nat) (hL : L < UINT64_SIZE) :
    L ≤ (_getNumberOfChunksRequired L 1200 - 1 + 1) * 1200 := by
  rw [getNumberOfChunksRequired_closed L 1200 hL (by decide)]
  omega

/-- A wrapped buffer exposes its bytes. -/
theorem parcBuffer_Contents_Wrap (bytes : List Byte) :
    parcBuffer_Contents (parcBuffer_Wrap bytes) = bytes := by
  unfold parcBuffer_Contents parcBuffer_Wrap
  simp

/-- The chunk read from an available file, as a byte range. -/
theorem getFileChunk_eq (fs : FileSystem) (path : CStr) (bytes : List Byte)
    (hfile : fs.file path = some bytes) (j : Nat) :
    tutorialFileIO_GetFileChunk fs path tutorialCommon_ChunkSize j
      = some (parcBuffer_Wrap (byteRange bytes (j * 1200) (min (j * 1200 + 1200) bytes.length))) := by
  unfold tutorialFileIO_GetFileChunk tutorialCommon_ChunkSize
  simp only [hfile]
  unfold byteRange
  congr 3
  omega

/-- The loop of `_chunkFileIntoMemory` over an available file adds one chunk object per
iteration and ends normally. -/
theorem chunkFileIntoMemory_loop_eq (fs : FileSystem) (path : CStr) (bytes : List Byte)
    (hfile : fs.file path = some bytes) (baseName : CCNxName) (final : Nat) :
    ∀ (remaining i : Nat) (acc : List CCNxContentObject),
      _chunkFileIntoMemory.loop fs path baseName final remaining i acc
        = .ok (acc ++ (List.range remaining).map
            (fun k => fileChunkObject baseName bytes final (i + k))) := by
  intro remaining
  induction remaining with
  | zero => intro i acc; simp [_chunkFileIntoMemory.loop]
  | succ n ih =>
    intro i acc
    unfold _chunkFileIntoMemory.loop
    rw [getFileChunk_eq fs path bytes hfile i]
    simp only []
    rw [ih (i + 1)]
    rw [List.range_succ_eq_map, List.map_cons, List.map_map]
    simp only [parcArrayList_Add, _createContentObject, ccnxName_Append, ccnxName_Copy,
      parcBuffer_Contents_Wrap, List.append_assoc, List.singleton_append, Nat.add_zero]
    congr 3
    apply List.map_congr_left
    intro k _
    simp only [Function.comp, Nat.succ_eq_add_one]
    congr 1
    omega

/-- The loop of `tutorialCommon_CreateWithBaseName` copies the segments it is asked for when
they all exist. -/
theorem createWithBaseName_loop_eq (name : CCNxName) :
    ∀ (remaining i : Nat) (acc : CCNxName), i + remaining ≤ name.length →
      tutorialCommon_CreateWithBaseName.loop name remaining i acc
        = .ok (acc ++ (name.drop i).take remaining) := by
  intro remaining
  induction remaining with
  | zero => intro i acc _; simp [tutorialCommon_CreateWithBaseName.loop]
  | succ n ih =>
    intro i acc h
    have hi : i < name.length := by omega
    unfold tutorialCommon_CreateWithBaseName.loop
    simp only [ccnxName_GetSegment, List.getElem?_eq_getElem hi]
    rw [ih (i + 1) _ (by omega)]
    rw [List.drop_eq_getElem_cons hi]
    simp only [ccnxName_Append, List.take_succ_cons, List.append_assoc, List.singleton_append]

/-- For a name with at least one segment `tutorialCommon_CreateWithBaseName` returns the name
without its last segment. -/
theorem createWithBaseName_eq (name : CCNxName) (hname : name ≠ []) :
    tutorialCommon_CreateWithBaseName name = .ok name.dropLast := by
  have hlen : 1 ≤ name.length := by
    cases name with
    | nil => exact absurd rfl hname
    | cons a t => simp
  unfold tutorialCommon_CreateWithBaseName
  simp only [ccnxName_GetSegmentCount, sizeSub, hlen, if_true, ccnxName_Create]
  rw [createWithBaseName_loop_eq name _ 0 [] (by omega)]
  simp [List.dropLast_eq_take]

/-- The size reported for an available file of machine-representable length. -/
theorem getFileSize_eq (fs : FileSystem) (path : CStr) (bytes : List Byte)
    (hfile : fs.file path = some bytes) (hB : bytes.length < UINT64_SIZE) :
    tutorialFileIO_GetFileSize fs path = bytes.length := by
  unfold tutorialFileIO_GetFileSize
  simp only [hfile]
  exact Nat.mod_eq_of_lt hB

/-- The final chunk number of an available file of machine-representable length. -/
theorem getFinalChunkNumberOfFile_eq (fs : FileSystem) (path : CStr) (bytes : List Byte)
    (hfile : fs.file path = some bytes) (hB : bytes.length < UINT64_SIZE) :
    _getFinalChunkNumberOfFile fs path tutorialCommon_ChunkSize
      = _getNumberOfChunksRequired bytes.length 1200 - 1 := by
  unfold _getFinalChunkNumberOfFile
  simp only [getFileSize_eq fs path bytes hfile hB]
  unfold tutorialCommon_ChunkSize
  split
  · rfl
  · omega

/-- What `_chunkFileIntoMemory` builds for an available file. -/
theorem chunkFileIntoMemory_eq (fs : FileSystem) (path : CStr) (bytes : List Byte)
    (hfile : fs.file path = some bytes) (name : CCNxName) (hname : name ≠ []) :
    _chunkFileIntoMemory fs path name
      = .ok (some ((List.range (_getFinalChunkNumberOfFile fs path tutorialCommon_ChunkSize + 1)).map
          (fileChunkObject name.dropLast bytes
            (_getFinalChunkNumberOfFile fs path tutorialCommon_ChunkSize)))) := by
  unfold _chunkFileIntoMemory
  simp only [tutorialFileIO_IsFileAvailable, hfile, Option.isSome_some, if_true]
  rw [createWithBaseName_eq name hname]
  simp only []
  rw [chunkFileIntoMemory_loop_eq fs path bytes hfile]
  simp

/-- For an unavailable file `_chunkFileIntoMemory` returns `NULL`. -/
theorem chunkFileIntoMemory_unavailable (fs : FileSystem) (path : CStr)
    (hfile : fs.file path = none) (name : CCNxName) :
    _chunkFileIntoMemory fs path name = .ok none := by
  unfold _chunkFileIntoMemory
  simp [tutorialFileIO_IsFileAvailable, hfile]

/-- C4 (round-trip law): for a directory listing served by `_createListResponse` and for a
file chunked by `_chunkFileIntoMemory`, the chunks for the indices `0, ..., finalChunkNumber`
all exist, and their payloads concatenated in order are the original byte sequence. -/
theorem roundTrip_spec (fs : FileSystem) (directoryPath fullFilePath : CStr)
    (requestName : Nat → CCNxName) (name : CCNxName) (bytes : List Byte)
    (hL : (fs.directoryListing directoryPath).length < UINT64_SIZE)
    (hfile : fs.file fullFilePath = some bytes) (hB : bytes.length < UINT64_SIZE)
    (hname : name ≠ []) :
    (∃ chunks : List CCNxContentObject,
        chunks.length
          = _getNumberOfChunksRequired (fs.directoryListing directoryPath).length 1200 - 1 + 1
        ∧ (∀ i, i ≤ _getNumberOfChunksRequired (fs.directoryListing directoryPath).length 1200 - 1 →
            chunks[i]?.isSome = true
            ∧ _createListResponse fs (requestName i) directoryPath i = .ok chunks[i]?)
        ∧ (chunks.map (fun c => c.payload)).flatten = fs.directoryListing directoryPath)
    ∧ (∃ chunks : List CCNxContentObject,
        _chunkFileIntoMemory fs fullFilePath name = .ok (some chunks)
        ∧ chunks.length = _getNumberOfChunksRequired bytes.length 1200 - 1 + 1
        ∧ (chunks.map (fun c => c.payload)).flatten = bytes) := by
  constructor
  · refine ⟨(List.range (_getNumberOfChunksRequired
        (fs.directoryListing directoryPath).length 1200 - 1 + 1)).map (fun i =>
          { name := requestName i,
            payload := byteRange (fs.directoryListing directoryPath) (i * 1200)
              (min (i * 1200 + 1200) (fs.directoryListing directoryPath).length),
            finalChunkNumber :=
              _getNumberOfChunksRequired (fs.directoryListing directoryPath).length 1200 - 1 }),
      ?_, ?_, ?_⟩
    · simp
    · intro i hi
      have hi2 : i < _getNumberOfChunksRequired (fs.directoryListing directoryPath).length 1200
          - 1 + 1 := by omega
      have hclosed := getNumberOfChunksRequired_closed
        (fs.directoryListing directoryPath).length 1200 hL (by decide)
      have hi3 : i < _getNumberOfChunksRequired (fs.directoryListing directoryPath).length
          tutorialCommon_ChunkSize := by
        unfold tutorialCommon_ChunkSize; omega
      rw [createListResponse_eq fs (requestName i) directoryPath i hL, if_pos hi3,
        List.getElem?_map, List.getElem?_range hi2]
      unfold tutorialCommon_ChunkSize
      simp
    · rw [List.map_map]
      exact flatten_byteRanges _ _ (le_chunksRequired_mul _ hL)
  · rw [chunkFileIntoMemory_eq fs fullFilePath bytes hfile name hname,
      getFinalChunkNumberOfFile_eq fs fullFilePath bytes hfile hB]
    refine ⟨_, rfl, ?_, ?_⟩
    · simp
    · rw [List.map_map]
      exact flatten_byteRanges _ _ (le_chunksRequired_mul _ hB)

/-- Witness for C4: the 3000-byte listing and the empty file of `exampleOrigin`. -/
theorem roundTrip_spec_witness :
    exampleOrigin.file "/srv/empty".toList = some []
    ∧ (∃ chunks : List CCNxContentObject,
        chunks.length
          = _getNumberOfChunksRequired (exampleOrigin.directoryListing "/srv".toList).length 1200
              - 1 + 1
        ∧ (∀ i, i ≤ _getNumberOfChunksRequired
              (exampleOrigin.directoryListing "/srv".toList).length 1200 - 1 →
            chunks[i]?.isSome = true
            ∧ _createListResponse exampleOrigin
                (exampleDomainPrefix ++ [ccnxNameSegmentNumber_Create CCNxNameLabelType.CHUNK i])
                "/srv".toList i = .ok chunks[i]?)
        ∧ (chunks.map (fun c => c.payload)).flatten = exampleOrigin.directoryListing "/srv".toList)
    ∧ (∃ chunks : List CCNxContentObject,
        _chunkFileIntoMemory exampleOrigin "/srv/empty".toList exampleDomainPrefix = .ok (some chunks)
        ∧ chunks.length = _getNumberOfChunksRequired ([] : List Byte).length 1200 - 1 + 1
        ∧ (chunks.map (fun c => c.payload)).flatten = []) :=
  ⟨by decide,
   roundTrip_spec exampleOrigin "/srv".toList "/srv/empty".toList
    (fun i => exampleDomainPrefix ++ [ccnxNameSegmentNumber_Create CCNxNameLabelType.CHUNK i])
    exampleDomainPrefix []
    (by simp only [exampleOrigin, List.length_replicate]; unfold UINT64_SIZE; decide)
    (by decide) (by unfold UINT64_SIZE; decide) (by decide)⟩

/-- The search finds an entry appended to a registry that had none for its key. -/
theorem find_append_of_miss (registry : List ChunkList) (entry : ChunkList)
    (hmiss : _createFetchResponseWithPreChunking.find registry entry.fileName = none) :
    _createFetchResponseWithPreChunking.find (registry ++ [entry]) entry.fileName = some entry := by
  induction registry with
  | nil => simp [_createFetchResponseWithPreChunking.find]
  | cons e rest ih =>
    unfold _createFetchResponseWithPreChunking.find at hmiss
    rw [List.cons_append]
    unfold _createFetchResponseWithPreChunking.find
    by_cases he : e.fileName = entry.fileName
    · rw [if_pos he] at hmiss
      cases hmiss
    · rw [if_neg he] at hmiss
      rw [if_neg he]
      exact ih hmiss

/-- An entry the search returns has the key that was searched for. -/
theorem find_fileName (registry : List ChunkList) (fileName : CStr) (entry : ChunkList)
    (hfind : _createFetchResponseWithPreChunking.find registry fileName = some entry) :
    entry.fileName = fileName := by
  induction registry with
  | nil => cases hfind
  | cons e rest ih =>
    unfold _createFetchResponseWithPreChunking.find at hfind
    by_cases he : e.fileName = fileName
    · rw [if_pos he] at hfind
      cases hfind
      exact he
    · rw [if_neg he] at hfind
      exact ih hfind

/-- A request whose key is in the registry is answered from the entry alone: the origin, the
request name and the directory play no part and the registry stays as it was. -/
theorem preChunking_hit (fs : FileSystem) (registry : List ChunkList) (name : CCNxName)
    (directoryPath fileName : CStr) (idx : Nat) (entry : ChunkList)
    (hfind : _createFetchResponseWithPreChunking.find registry fileName = some entry) :
    _createFetchResponseWithPreChunking fs registry name directoryPath fileName idx
      = .ok (entry.chunks[idx]?, registry) := by
  unfold _createFetchResponseWithPreChunking _createFetchResponseWithPreChunking.getOrBuild
  simp only [hfind, parcArrayList_Size, parcArrayList_Get]
  split
  · rfl
  · rename_i h
    rw [List.getElem?_eq_none (by omega)]

/-- A request whose key is not in the registry and whose file is available builds the whole
chunk list, adds it to the registry and answers from it. -/
theorem preChunking_miss_available (fs : FileSystem) (registry : List ChunkList) (name : CCNxName)
    (directoryPath fileName : CStr) (idx : Nat) (bytes : List Byte)
    (hmiss : _createFetchResponseWithPreChunking.find registry fileName = none)
    (hfile : fs.file (fullFilePathOf directoryPath fileName) = some bytes)
    (hname : name ≠ []) :
    _createFetchResponseWithPreChunking fs registry name directoryPath fileName idx
      = .ok (((List.range (_getFinalChunkNumberOfFile fs (fullFilePathOf directoryPath fileName)
                tutorialCommon_ChunkSize + 1)).map
              (fileChunkObject name.dropLast bytes (_getFinalChunkNumberOfFile fs
                (fullFilePathOf directoryPath fileName) tutorialCommon_ChunkSize)))[idx]?,
            registry ++ [{ fileName := fileName,
                           chunks := (List.range (_getFinalChunkNumberOfFile fs
                              (fullFilePathOf directoryPath fileName) tutorialCommon_ChunkSize + 1)).map
                             (fileChunkObject name.dropLast bytes (_getFinalChunkNumberOfFile fs
                               (fullFilePathOf directoryPath fileName) tutorialCommon_ChunkSize)) }]) := by
  unfold _createFetchResponseWithPreChunking _createFetchResponseWithPreChunking.getOrBuild
  simp only [hmiss, chunkFileIntoMemory_eq fs _ bytes hfile name hname, parcArrayList_Size,
    parcArrayList_Get, parcArrayList_Add]
  split
  · rfl
  · rename_i h
    rw [List.getElem?_eq_none (by omega)]

/-- A request whose key is not in the registry and whose file is unavailable gets no response
and leaves the registry as it was. -/
theorem preChunking_miss_unavailable (fs : FileSystem) (registry : List ChunkList)
    (name : CCNxName) (directoryPath fileName : CStr) (idx : Nat)
    (hmiss : _createFetchResponseWithPreChunking.find registry fileName = none)
    (hfile : fs.file (fullFilePathOf directoryPath fileName) = none) :
    _createFetchResponseWithPreChunking fs registry name directoryPath fileName idx
      = .ok (none, registry) := by
  unfold _createFetchResponseWithPreChunking _createFetchResponseWithPreChunking.getOrBuild
  simp only [hmiss, chunkFileIntoMemory_unavailable fs _ hfile name]

/-- The chunk at position `j` of a built chunk list is the one the specification prescribes. -/
theorem servesChunk_built (baseName : CCNxName) (bytes : List Byte) (j : Nat) :
    ServesChunk bytes j
      ((List.range (_getNumberOfChunksRequired bytes.length 1200 - 1 + 1)).map
        (fileChunkObject baseName bytes (_getNumberOfChunksRequired bytes.length 1200 - 1)))[j]? := by
  by_cases hj : j ≤ _getNumberOfChunksRequired bytes.length 1200 - 1
  · rw [List.getElem?_map, List.getElem?_range (by omega)]
    exact ⟨hj, rfl, rfl⟩
  · have hnone : ((List.range (_getNumberOfChunksRequired bytes.length 1200 - 1 + 1)).map
        (fileChunkObject baseName bytes (_getNumberOfChunksRequired bytes.length 1200 - 1)))[j]?
        = none := by
      apply List.getElem?_eq_none
      simp
      omega
    rw [hnone]
    show _getNumberOfChunksRequired bytes.length 1200 - 1 < j
    omega

/-- C5: in pre-chunked mode, for an available file with content `bytes` whose key is not yet
cached, the request for any index `j` is answered as the specification prescribes (up to the
final chunk number `ChunksRequired(L, 1200) - 1` a chunk with the bytes
`[j*1200, min(j*1200 + 1200, L))` and that final chunk number, nothing beyond), and so is every
later request against the registry the first one leaves behind. For `L = 2400` there are two
chunks, `[0,1200)` and `[1200,2400)`, with final chunk number 1 and nothing at index 2; for
`L = 0` index 0 gives a zero-length chunk with final chunk number 0 and index 1 nothing. -/
theorem preChunkedFetch_spec (fs : FileSystem) (registry : List ChunkList) (name : CCNxName)
    (directoryPath fileName : CStr) (bytes : List Byte)
    (hmiss : _createFetchResponseWithPreChunking.find registry fileName = none)
    (hfile : fs.file (fullFilePathOf directoryPath fileName) = some bytes)
    (hB : bytes.length < UINT64_SIZE) (hname : name ≠ []) :
    ∃ registry' : List ChunkList,
      (∀ j, ∃ r, _createFetchResponseWithPreChunking fs registry name directoryPath fileName j
            = .ok (r, registry') ∧ ServesChunk bytes j r)
      ∧ (∀ j name', ∃ r, _createFetchResponseWithPreChunking fs registry' name' directoryPath
            fileName j = .ok (r, registry') ∧ ServesChunk bytes j r)
      ∧ (bytes.length = 2400 →
          _getNumberOfChunksRequired bytes.length 1200 = 2
          ∧ _getFinalChunkNumberOfFile fs (fullFilePathOf directoryPath fileName) 1200 = 1
          ∧ ∃ c0 c1,
              _createFetchResponseWithPreChunking fs registry name directoryPath fileName 0
                = .ok (some c0, registry')
              ∧ c0.payload = byteRange bytes 0 1200 ∧ c0.finalChunkNumber = 1
              ∧ _createFetchResponseWithPreChunking fs registry name directoryPath fileName 1
                = .ok (some c1, registry')
              ∧ c1.payload = byteRange bytes 1200 2400 ∧ c1.finalChunkNumber = 1
              ∧ _createFetchResponseWithPreChunking fs registry name directoryPath fileName 2
                = .ok (none, registry'))
      ∧ (bytes.length = 0 →
          _getFinalChunkNumberOfFile fs (fullFilePathOf directoryPath fileName) 1200 = 0
          ∧ ∃ c0,
              _createFetchResponseWithPreChunking fs registry name directoryPath fileName 0
                = .ok (some c0, registry')
              ∧ c0.payload.length = 0 ∧ c0.finalChunkNumber = 0
              ∧ _createFetchResponseWithPreChunking fs registry name directoryPath fileName 1
                = .ok (none, registry')) := by
  have hfinal := getFinalChunkNumberOfFile_eq fs (fullFilePathOf directoryPath fileName) bytes
    hfile hB
  have hcall := fun j => preChunking_miss_available fs registry name directoryPath fileName j
    bytes hmiss hfile hname
  simp only [hfinal] at hcall
  unfold tutorialCommon_ChunkSize at hfinal
  refine ⟨registry ++ [ChunkList.mk fileName
      ((List.range (_getNumberOfChunksRequired bytes.length 1200 - 1 + 1)).map
        (fileChunkObject name.dropLast bytes (_getNumberOfChunksRequired bytes.length 1200 - 1)))],
    ?_, ?_, ?_, ?_⟩
  · intro j
    exact ⟨_, hcall j, servesChunk_built name.dropLast bytes j⟩
  · intro j name'
    refine ⟨_, preChunking_hit fs _ name' directoryPath fileName j _
      (find_append_of_miss registry (ChunkList.mk fileName _) hmiss), ?_⟩
    exact servesChunk_built name.dropLast bytes j
  · intro hlen
    have h2 : _getNumberOfChunksRequired bytes.length 1200 = 2 := by
      rw [getNumberOfChunksRequired_closed _ 1200 hB (by decide), hlen]; decide
    refine ⟨h2, by rw [hfinal, h2], ?_⟩
    rw [hcall 0, hcall 1, hcall 2, h2]
    refine ⟨fileChunkObject name.dropLast bytes 1 0, fileChunkObject name.dropLast bytes 1 1,
      rfl, ?_, rfl, rfl, ?_, rfl, rfl⟩
    · simp only [fileChunkObject, hlen]; rfl
    · simp only [fileChunkObject, hlen]; rfl
  · intro hlen
    have h1 : _getNumberOfChunksRequired bytes.length 1200 = 1 := by
      rw [getNumberOfChunksRequired_closed _ 1200 hB (by decide), hlen]; decide
    refine ⟨by rw [hfinal, h1], ?_⟩
    rw [hcall 0, hcall 1, h1]
    refine ⟨fileChunkObject name.dropLast bytes 0 0, rfl, ?_, rfl, rfl⟩
    simp only [fileChunkObject, length_byteRange, hlen]; rfl

/-- Witness for C5: the 2400-byte file `/srv/movie` of `exampleOrigin`, from the empty registry. -/
theorem preChunkedFetch_spec_witness :
    (List.replicate 2400 (7 : Byte)).length = 2400
    ∧ ∃ registry' : List ChunkList,
      (∀ j, ∃ r, _createFetchResponseWithPreChunking exampleOrigin [] exampleFetchName
            "/srv".toList "movie".toList j
            = .ok (r, registry') ∧ ServesChunk (List.replicate 2400 7) j r)
      ∧ (∀ j name', ∃ r, _createFetchResponseWithPreChunking exampleOrigin registry' name'
            "/srv".toList "movie".toList j = .ok (r, registry')
            ∧ ServesChunk (List.replicate 2400 7) j r)
      ∧ ((List.replicate 2400 (7 : Byte)).length = 2400 →
          _getNumberOfChunksRequired (List.replicate 2400 (7 : Byte)).length 1200 = 2
          ∧ _getFinalChunkNumberOfFile exampleOrigin
              (fullFilePathOf "/srv".toList "movie".toList) 1200 = 1
          ∧ ∃ c0 c1,
              _createFetchResponseWithPreChunking exampleOrigin [] exampleFetchName
                "/srv".toList "movie".toList 0 = .ok (some c0, registry')
              ∧ c0.payload = byteRange (List.replicate 2400 7) 0 1200 ∧ c0.finalChunkNumber = 1
              ∧ _createFetchResponseWithPreChunking exampleOrigin [] exampleFetchName
                "/srv".toList "movie".toList 1 = .ok (some c1, registry')
              ∧ c1.payload = byteRange (List.replicate 2400 7) 1200 2400 ∧ c1.finalChunkNumber = 1
              ∧ _createFetchResponseWithPreChunking exampleOrigin [] exampleFetchName
                "/srv".toList "movie".toList 2 = .ok (none, registry'))
      ∧ ((List.replicate 2400 (7 : Byte)).length = 0 →
          _getFinalChunkNumberOfFile exampleOrigin
              (fullFilePathOf "/srv".toList "movie".toList) 1200 = 0
          ∧ ∃ c0,
              _createFetchResponseWithPreChunking exampleOrigin [] exampleFetchName
                "/srv".toList "movie".toList 0 = .ok (some c0, registry')
              ∧ c0.payload.length = 0 ∧ c0.finalChunkNumber = 0
              ∧ _createFetchResponseWithPreChunking exampleOrigin [] exampleFetchName
                "/srv".toList "movie".toList 1 = .ok (none, registry')) :=
  ⟨List.length_replicate 2400 7,
   preChunkedFetch_spec exampleOrigin [] exampleFetchName "/srv".toList "movie".toList
    (List.replicate 2400 7) rfl
    (by
      have hpath : fullFilePathOf "/srv".toList "movie".toList = "/srv/movie".toList := by decide
      simp only [exampleOrigin, hpath, if_true])
    (by simp only [List.length_replicate]; unfold UINT64_SIZE; decide) (by decide)⟩

/-- A chunk list that `_chunkFileIntoMemory` returns is the list of the chunk objects
`0, ..., finalChunkNumber` of the file's content at that moment. -/
theorem chunkFileIntoMemory_some (fs : FileSystem) (path : CStr) (name : CCNxName)
    (chunks : List CCNxContentObject)
    (hbuilt : _chunkFileIntoMemory fs path name = .ok (some chunks)) :
    ∃ bytes baseName, fs.file path = some bytes
      ∧ chunks = (List.range (_getFinalChunkNumberOfFile fs path tutorialCommon_ChunkSize + 1)).map
          (fileChunkObject baseName bytes
            (_getFinalChunkNumberOfFile fs path tutorialCommon_ChunkSize)) := by
  unfold _chunkFileIntoMemory at hbuilt
  cases hfile : fs.file path with
  | none =>
    simp [tutorialFileIO_IsFileAvailable, hfile] at hbuilt
  | some bytes =>
    simp only [tutorialFileIO_IsFileAvailable, hfile, Option.isSome_some, if_true] at hbuilt
    cases hbase : tutorialCommon_CreateWithBaseName name with
    | error e => simp [hbase] at hbuilt
    | ok baseName =>
      simp only [hbase] at hbuilt
      rw [chunkFileIntoMemory_loop_eq fs path bytes hfile] at hbuilt
      refine ⟨bytes, baseName, rfl, ?_⟩
      simp only [List.nil_append, Nat.zero_add] at hbuilt
      injection hbuilt with h1
      injection h1 with h2
      exact h2.symm

/-- C6: for a key present in the registry, the pre-chunked lookup returns `chunks[idx]` when
`idx` is within the bounds of the cached sequence and nothing, without a fault, otherwise; the
registry is unchanged. When the entry was built by `_chunkFileIntoMemory`, every chunk carries
the final chunk number computed at build time, the lookup is present for every `idx` up to it
and absent for every `idx` beyond it. -/
theorem preChunkedLookup_spec (fs : FileSystem) (registry : List ChunkList) (name : CCNxName)
    (directoryPath fileName : CStr) (idx : Nat) (entry : ChunkList)
    (hfind : _createFetchResponseWithPreChunking.find registry fileName = some entry) :
    (∀ h : idx < entry.chunks.length,
        _createFetchResponseWithPreChunking fs registry name directoryPath fileName idx
          = .ok (some (entry.chunks.get ⟨idx, h⟩), registry))
    ∧ (entry.chunks.length ≤ idx →
        _createFetchResponseWithPreChunking fs registry name directoryPath fileName idx
          = .ok (none, registry))
    ∧ (∀ (fs0 : FileSystem) (path0 : CStr) (name0 : CCNxName),
        _chunkFileIntoMemory fs0 path0 name0 = .ok (some entry.chunks) →
          (∀ c ∈ entry.chunks, c.finalChunkNumber = _getFinalChunkNumberOfFile fs0 path0 1200)
          ∧ (idx ≤ _getFinalChunkNumberOfFile fs0 path0 1200 →
              ∃ c, _createFetchResponseWithPreChunking fs registry name directoryPath fileName idx
                    = .ok (some c, registry)
                ∧ c.finalChunkNumber = _getFinalChunkNumberOfFile fs0 path0 1200)
          ∧ (_getFinalChunkNumberOfFile fs0 path0 1200 < idx →
              _createFetchResponseWithPreChunking fs registry name directoryPath fileName idx
                = .ok (none, registry))) := by
  have hcall := preChunking_hit fs registry name directoryPath fileName idx entry hfind
  refine ⟨?_, ?_, ?_⟩
  · intro h
    rw [hcall, List.getElem?_eq_getElem h]
    rfl
  · intro h
    rw [hcall, List.getElem?_eq_none h]
  · intro fs0 path0 name0 hbuilt
    obtain ⟨bytes, baseName, _, hchunks⟩ := chunkFileIntoMemory_some fs0 path0 name0 _ hbuilt
    unfold tutorialCommon_ChunkSize at hchunks
    rw [hcall, hchunks]
    refine ⟨?_, ?_, ?_⟩
    · intro c hc
      rw [List.mem_map] at hc
      obtain ⟨j, _, hj⟩ := hc
      rw [← hj]
      rfl
    · intro hidx
      rw [List.getElem?_map, List.getElem?_range (by omega)]
      exact ⟨_, rfl, rfl⟩
    · intro hidx
      rw [List.getElem?_eq_none (by simp; omega)]

/-- Witness for C6: the registry holding the entry built for the empty file, asked for chunk 0. -/
theorem preChunkedLookup_spec_witness :
    _chunkFileIntoMemory exampleOrigin "/srv/empty".toList exampleFetchEmptyName
      = .ok (some exampleEntry.chunks)
    ∧ (∀ h : 0 < exampleEntry.chunks.length,
        _createFetchResponseWithPreChunking emptyOrigin [exampleEntry] exampleFetchEmptyName
          "/srv".toList "empty".toList 0
          = .ok (some (exampleEntry.chunks.get ⟨0, h⟩), [exampleEntry]))
    ∧ (exampleEntry.chunks.length ≤ 0 →
        _createFetchResponseWithPreChunking emptyOrigin [exampleEntry] exampleFetchEmptyName
          "/srv".toList "empty".toList 0
          = .ok (none, [exampleEntry]))
    ∧ (∀ (fs0 : FileSystem) (path0 : CStr) (name0 : CCNxName),
        _chunkFileIntoMemory fs0 path0 name0 = .ok (some exampleEntry.chunks) →
          (∀ c ∈ exampleEntry.chunks, c.finalChunkNumber = _getFinalChunkNumberOfFile fs0 path0 1200)
          ∧ (0 ≤ _getFinalChunkNumberOfFile fs0 path0 1200 →
              ∃ c, _createFetchResponseWithPreChunking emptyOrigin [exampleEntry]
                    exampleFetchEmptyName "/srv".toList "empty".toList 0
                    = .ok (some c, [exampleEntry])
                ∧ c.finalChunkNumber = _getFinalChunkNumberOfFile fs0 path0 1200)
          ∧ (_getFinalChunkNumberOfFile fs0 path0 1200 < 0 →
              _createFetchResponseWithPreChunking emptyOrigin [exampleEntry] exampleFetchEmptyName
                "/srv".toList "empty".toList 0
                = .ok (none, [exampleEntry]))) :=
  ⟨by rfl,
   preChunkedLookup_spec emptyOrigin [exampleEntry] exampleFetchEmptyName "/srv".toList
     "empty".toList 0 exampleEntry (by rfl)⟩

/-- After a successful find-or-build the entry returned is the one the search finds in the
registry the call leaves behind. -/
theorem getOrBuild_find (fs : FileSystem) (registry registry1 : List ChunkList) (name : CCNxName)
    (directoryPath fileName : CStr) (entry : ChunkList)
    (h : _createFetchResponseWithPreChunking.getOrBuild fs registry name directoryPath fileName
      = .ok (some entry, registry1)) :
    _createFetchResponseWithPreChunking.find registry1 fileName = some entry := by
  unfold _createFetchResponseWithPreChunking.getOrBuild at h
  cases hfind : _createFetchResponseWithPreChunking.find registry fileName with
  | some e =>
    simp only [hfind] at h
    injection h with h1
    injection h1 with h2 h3
    injection h2 with h4
    rw [← h3, ← h4]
    exact hfind
  | none =>
    simp only [hfind] at h
    cases hbuild : _chunkFileIntoMemory fs (fullFilePathOf directoryPath fileName) name with
    | error e => simp [hbuild] at h
    | ok built =>
      cases built with
      | none => simp [hbuild] at h
      | some chunkedContent =>
        simp only [hbuild, parcArrayList_Add] at h
        injection h with h1
        injection h1 with h2 h3
        injection h2 with h4
        rw [← h3, ← h4]
        exact find_append_of_miss registry (ChunkList.mk fileName chunkedContent) hfind

/-- C7 (staleness by design): once the find-or-build step of
`_createFetchResponseWithPreChunking` has succeeded for a key, a second call for the same key
returns the same entry (the same chunk sequence) and leaves the registry as it is, whatever
the state `fs2` of the origin then is, and every request for the key is answered from that
sequence: the origin is not read again. -/
theorem getOrBuild_stale (fs1 fs2 : FileSystem) (registry registry1 : List ChunkList)
    (name1 name2 : CCNxName) (directoryPath fileName : CStr) (entry : ChunkList)
    (h1 : _createFetchResponseWithPreChunking.getOrBuild fs1 registry name1 directoryPath fileName
      = .ok (some entry, registry1)) :
    _createFetchResponseWithPreChunking.getOrBuild fs2 registry1 name2 directoryPath fileName
        = .ok (some entry, registry1)
    ∧ (∀ idx, _createFetchResponseWithPreChunking fs1 registry name1 directoryPath fileName idx
        = .ok (entry.chunks[idx]?, registry1))
    ∧ (∀ idx, _createFetchResponseWithPreChunking fs2 registry1 name2 directoryPath fileName idx
        = .ok (entry.chunks[idx]?, registry1)) := by
  have hfind := getOrBuild_find fs1 registry registry1 name1 directoryPath fileName entry h1
  refine ⟨?_, ?_, ?_⟩
  · unfold _createFetchResponseWithPreChunking.getOrBuild
    simp only [hfind]
  · intro idx
    unfold _createFetchResponseWithPreChunking
    simp only [h1, parcArrayList_Size, parcArrayList_Get]
    split
    · rfl
    · rename_i hlt
      rw [List.getElem?_eq_none (by omega)]
  · intro idx
    exact preChunking_hit fs2 registry1 name2 directoryPath fileName idx entry hfind

/-- Witness for C7: the entry for `/srv/empty` is built from `exampleOrigin`; the second call is
made against `emptyOrigin`, where the file no longer exists. -/
theorem getOrBuild_stale_witness :
    _createFetchResponseWithPreChunking.getOrBuild emptyOrigin [exampleEntry] exampleFetchName
        "/srv".toList "empty".toList
        = .ok (some exampleEntry, [exampleEntry])
    ∧ (∀ idx, _createFetchResponseWithPreChunking exampleOrigin [] exampleFetchEmptyName
        "/srv".toList "empty".toList idx
        = .ok (exampleEntry.chunks[idx]?, [exampleEntry]))
    ∧ (∀ idx, _createFetchResponseWithPreChunking emptyOrigin [exampleEntry] exampleFetchName
        "/srv".toList "empty".toList idx
        = .ok (exampleEntry.chunks[idx]?, [exampleEntry])) :=
  getOrBuild_stale exampleOrigin emptyOrigin [] [exampleEntry] exampleFetchEmptyName
    exampleFetchName "/srv".toList "empty".toList exampleEntry (by rfl)

/-- C8 (failure atomicity): a pre-chunked request whose key is not cached and whose file is
unavailable gets no response and leaves the registry exactly as it was, with still no entry
for the key; a later request for the key against that registry, made when the file has become
available with content `bytes`, builds the chunk sequence, adds it and answers from it. -/
theorem preChunking_failure_atomic (fs fs' : FileSystem) (registry : List ChunkList)
    (name name' : CCNxName) (directoryPath fileName : CStr) (idx idx' : Nat) (bytes : List Byte)
    (hmiss : _createFetchResponseWithPreChunking.find registry fileName = none)
    (hunavailable : fs.file (fullFilePathOf directoryPath fileName) = none)
    (havailable : fs'.file (fullFilePathOf directoryPath fileName) = some bytes)
    (hB : bytes.length < UINT64_SIZE) (hname' : name' ≠ []) :
    _createFetchResponseWithPreChunking fs registry name directoryPath fileName idx
        = .ok (none, registry)
    ∧ _createFetchResponseWithPreChunking.getOrBuild fs registry name directoryPath fileName
        = .ok (none, registry)
    ∧ ∃ chunks : List CCNxContentObject,
        _chunkFileIntoMemory fs' (fullFilePathOf directoryPath fileName) name' = .ok (some chunks)
        ∧ _createFetchResponseWithPreChunking fs' registry name' directoryPath fileName idx'
            = .ok (chunks[idx']?, registry ++ [ChunkList.mk fileName chunks])
        ∧ chunks.length = _getNumberOfChunksRequired bytes.length 1200 - 1 + 1
        ∧ ServesChunk bytes idx' chunks[idx']?
        ∧ (chunks.map (fun c => c.payload)).flatten = bytes := by
  refine ⟨preChunking_miss_unavailable fs registry name directoryPath fileName idx hmiss
    hunavailable, ?_, ?_⟩
  · unfold _createFetchResponseWithPreChunking.getOrBuild
    simp only [hmiss, chunkFileIntoMemory_unavailable fs _ hunavailable name]
  · have hfinal := getFinalChunkNumberOfFile_eq fs' (fullFilePathOf directoryPath fileName) bytes
      havailable hB
    have hbuilt := chunkFileIntoMemory_eq fs' (fullFilePathOf directoryPath fileName) bytes
      havailable name' hname'
    have hcall := preChunking_miss_available fs' registry name' directoryPath fileName idx' bytes
      hmiss havailable hname'
    rw [hfinal] at hbuilt hcall
    refine ⟨_, hbuilt, hcall, ?_, servesChunk_built name'.dropLast bytes idx', ?_⟩
    · simp
    · rw [List.map_map]
      exact flatten_byteRanges _ _ (le_chunksRequired_mul _ hB)

/-- Witness for C8: `/srv/empty` is asked for while the origin has no file (`emptyOrigin`), then
again once it exists (`exampleOrigin`). -/
theorem preChunking_failure_atomic_witness :
    _createFetchResponseWithPreChunking emptyOrigin [] exampleFetchEmptyName "/srv".toList
        "empty".toList 0 = .ok (none, [])
    ∧ _createFetchResponseWithPreChunking.getOrBuild emptyOrigin [] exampleFetchEmptyName
        "/srv".toList "empty".toList = .ok (none, [])
    ∧ ∃ chunks : List CCNxContentObject,
        _chunkFileIntoMemory exampleOrigin (fullFilePathOf "/srv".toList "empty".toList)
          exampleFetchEmptyName = .ok (some chunks)
        ∧ _createFetchResponseWithPreChunking exampleOrigin [] exampleFetchEmptyName "/srv".toList
            "empty".toList 0
            = .ok (chunks[0]?, [] ++ [ChunkList.mk "empty".toList chunks])
        ∧ chunks.length = _getNumberOfChunksRequired ([] : List Byte).length 1200 - 1 + 1
        ∧ ServesChunk [] 0 chunks[0]?
        ∧ (chunks.map (fun c => c.payload)).flatten = [] :=
  preChunking_failure_atomic emptyOrigin exampleOrigin [] exampleFetchEmptyName
    exampleFetchEmptyName "/srv".toList "empty".toList 0 0 [] rfl rfl (by decide)
    (by unfold UINT64_SIZE; decide) (by decide)

/-- The C `tolower` agrees with `Char.toLower`. -/
theorem tolower_eq_toLower (c : Char) : tolower c = c.toLower.toNat := by
  unfold tolower Char.toLower
  simp only []
  by_cases h : 65 ≤ c.toNat ∧ c.toNat ≤ 90
  · have h' : c.toNat ≥ 65 ∧ c.toNat ≤ 90 := h
    rw [if_pos h, if_pos h']
    generalize c.toNat = n at h
    obtain ⟨h1, h2⟩ := h
    interval_cases n <;> rfl
  · have h' : ¬ (c.toNat ≥ 65 ∧ c.toNat ≤ 90) := h
    rw [if_neg h, if_neg h']

/-- Two characters fold to the same code exactly when they are equal up to case. -/
theorem tolower_eq_iff (c1 c2 : Char) : tolower c1 = tolower c2 ↔ c1.toLower = c2.toLower := by
  rw [tolower_eq_toLower, tolower_eq_toLower]
  constructor
  · intro h
    rw [← Char.ofNat_toNat c1.toLower, ← Char.ofNat_toNat c2.toLower, h]
  · intro h
    rw [h]

/-- Only NUL folds to code 0. -/
theorem tolower_ne_zero (c : Char) (h : c.toNat ≠ 0) : tolower c ≠ 0 := by
  unfold tolower
  split <;> omega

/-- For a token without NUL, `strncasecmp(t, command, strlen(t)) == 0` says that `t` is a
case-insensitive prefix of `command`. -/
theorem strncasecmp_eq_zero_iff :
    ∀ (t command : CStr), (∀ c ∈ t, c.toNat ≠ 0) →
      (strncasecmp t command (strlen t) = 0 ↔ IsCommandPrefix t command) := by
  intro t
  unfold IsCommandPrefix
  induction t with
  | nil => intro command _; simp [strncasecmp, strlen]
  | cons c1 s1 ih =>
    intro command hnul
    have hc1 : tolower c1 ≠ 0 := tolower_ne_zero c1 (hnul c1 (List.mem_cons_self _ _))
    cases command with
    | nil =>
      simp only [strlen, List.length_cons, strncasecmp, List.map_cons, List.map_nil,
        List.prefix_nil]
      constructor
      · intro h; omega
      · intro h; cases h
    | cons c2 s2 =>
      simp only [strlen, List.length_cons, strncasecmp, List.map_cons, List.cons_prefix_cons]
      by_cases heq : tolower c1 = tolower c2
      · have hrest := ih s2 (fun c hc => hnul c (List.mem_cons_of_mem _ hc))
        simp only [strlen] at hrest
        simp only [heq, ne_eq, not_true_eq_false, if_false, hrest]
        rw [← tolower_eq_iff]
        simp [heq]
      · simp only [ne_eq, heq, not_false_eq_true, if_true]
        rw [← tolower_eq_iff]
        constructor
        · intro h; omega
        · intro h; exact absurd h.1 heq

/-- A case-insensitive prefix is no longer than the command. -/
theorem IsCommandPrefix.length_le (t command : CStr) (h : IsCommandPrefix t command) :
    t.length ≤ command.length := by
  unfold IsCommandPrefix at h
  have hle := List.IsPrefix.length_le h
  simpa using hle

/-- What `_createInterestResponse` does once the command token and the chunk number have been
extracted. -/
theorem createInterestResponse_of_extracted (fs : FileSystem) (registry : List ChunkList)
    (interestName domainPrefix : CCNxName) (directoryPath : CStr) (doPreChunk : Bool)
    (command : CStr) (idx : Nat)
    (hcmd : tutorialCommon_CreateCommandStringFromName interestName domainPrefix = .ok command)
    (hidx : tutorialCommon_GetChunkNumberFromName interestName = .ok idx) :
    _createInterestResponse fs registry interestName domainPrefix directoryPath doPreChunk
      = match _createInterestResponse.dispatch command with
        | Dispatch.list =>
          match _createListResponse fs interestName directoryPath idx with
          | .ok result => .ok (result, registry)
          | .error e => .error e
        | Dispatch.fetch =>
          match tutorialCommon_CreateFileNameFromName interestName with
          | .error e => .error e
          | .ok fileName =>
            if doPreChunk then
              _createFetchResponseWithPreChunking fs registry interestName directoryPath
                fileName idx
            else
              .ok (_createFetchResponse fs interestName directoryPath fileName idx, registry)
        | Dispatch.nothing => .ok (none, registry) := by
  unfold _createInterestResponse
  simp only [hcmd, hidx]

/-- The guard chain of `_createInterestResponse`, in terms of case-insensitive prefixes. -/
theorem dispatch_eq (t : CStr) (hnul : ∀ c ∈ t, c.toNat ≠ 0) :
    (_createInterestResponse.dispatch t = Dispatch.list
        ↔ IsCommandPrefix t tutorialCommon_CommandList)
    ∧ (_createInterestResponse.dispatch t = Dispatch.fetch
        ↔ ¬ IsCommandPrefix t tutorialCommon_CommandList
          ∧ IsCommandPrefix t tutorialCommon_CommandFetch)
    ∧ (_createInterestResponse.dispatch t = Dispatch.nothing
        ↔ ¬ IsCommandPrefix t tutorialCommon_CommandList
          ∧ ¬ IsCommandPrefix t tutorialCommon_CommandFetch) := by
  have hlist := strncasecmp_eq_zero_iff t tutorialCommon_CommandList hnul
  have hfetch := strncasecmp_eq_zero_iff t tutorialCommon_CommandFetch hnul
  unfold _createInterestResponse.dispatch
  by_cases h1 : strncasecmp t tutorialCommon_CommandList (strlen t) = 0
  · have p1 := hlist.mp h1
    simp only [h1, if_true, p1, not_true_eq_false, false_and, true_iff]
    refine ⟨trivial, ?_, ?_⟩ <;> simp
  · have p1 : ¬ IsCommandPrefix t tutorialCommon_CommandList := fun h => h1 (hlist.mpr h)
    by_cases h2 : strncasecmp t tutorialCommon_CommandFetch (strlen t) = 0
    · have p2 := hfetch.mp h2
      simp only [h1, h2, if_true, if_false, p1, p2, not_false_eq_true, not_true_eq_false,
        and_self, and_false]
      refine ⟨?_, trivial, ?_⟩ <;> simp
    · have p2 : ¬ IsCommandPrefix t tutorialCommon_CommandFetch := fun h => h2 (hfetch.mpr h)
      simp only [h1, h2, if_false, p1, p2, not_false_eq_true, and_self, and_false]
      refine ⟨?_, ?_, trivial⟩ <;> simp

/-- C10: command matching in `_createInterestResponse`. A token `t` is dispatched as list iff
it is a case-insensitive prefix of "list" (the full token included), otherwise as fetch iff it
is a case-insensitive prefix of "fetch", otherwise to nothing; a token longer than a command
never matches it; list is tested first; and a request whose command token is `t` gets the
response of the branch so chosen. -/
theorem dispatch_spec (t : CStr) (hnul : ∀ c ∈ t, c.toNat ≠ 0) :
    (_createInterestResponse.dispatch t = Dispatch.list
        ↔ IsCommandPrefix t "list".toList)
    ∧ (_createInterestResponse.dispatch t = Dispatch.fetch
        ↔ ¬ IsCommandPrefix t "list".toList ∧ IsCommandPrefix t "fetch".toList)
    ∧ (_createInterestResponse.dispatch t = Dispatch.nothing
        ↔ ¬ IsCommandPrefix t "list".toList ∧ ¬ IsCommandPrefix t "fetch".toList)
    ∧ (4 < t.length → _createInterestResponse.dispatch t ≠ Dispatch.list)
    ∧ (5 < t.length → _createInterestResponse.dispatch t ≠ Dispatch.fetch)
    ∧ (IsCommandPrefix t "list".toList → IsCommandPrefix t "fetch".toList →
        _createInterestResponse.dispatch t = Dispatch.list)
    ∧ _createInterestResponse.dispatch "list".toList = Dispatch.list
    ∧ _createInterestResponse.dispatch "fetch".toList = Dispatch.fetch
    ∧ (∀ (fs : FileSystem) (registry : List ChunkList) (interestName domainPrefix : CCNxName)
        (directoryPath : CStr) (doPreChunk : Bool) (idx : Nat),
        tutorialCommon_CreateCommandStringFromName interestName domainPrefix = .ok t →
        tutorialCommon_GetChunkNumberFromName interestName = .ok idx →
          (IsCommandPrefix t "list".toList →
            _createInterestResponse fs registry interestName domainPrefix directoryPath doPreChunk
              = match _createListResponse fs interestName directoryPath idx with
                | .ok result => .ok (result, registry)
                | .error e => .error e)
          ∧ (¬ IsCommandPrefix t "list".toList → IsCommandPrefix t "fetch".toList →
              ∀ fileName, tutorialCommon_CreateFileNameFromName interestName = .ok fileName →
                _createInterestResponse fs registry interestName domainPrefix directoryPath
                    doPreChunk
                  = if doPreChunk then
                      _createFetchResponseWithPreChunking fs registry interestName directoryPath
                        fileName idx
                    else
                      .ok (_createFetchResponse fs interestName directoryPath fileName idx,
                        registry))
          ∧ (¬ IsCommandPrefix t "list".toList → ¬ IsCommandPrefix t "fetch".toList →
              _createInterestResponse fs registry interestName domainPrefix directoryPath
                  doPreChunk = .ok (none, registry))) := by
  obtain ⟨hl, hf, hn⟩ := dispatch_eq t hnul
  have hlistlen : tutorialCommon_CommandList.length = 4 := by decide
  have hfetchlen : tutorialCommon_CommandFetch.length = 5 := by decide
  refine ⟨hl, hf, hn, ?_, ?_, ?_, by decide, by decide, ?_⟩
  · intro hlen hd
    have hle := IsCommandPrefix.length_le t _ (hl.mp hd)
    omega
  · intro hlen hd
    have hle := IsCommandPrefix.length_le t _ (hf.mp hd).2
    omega
  · intro h1 _
    exact hl.mpr h1
  · intro fs registry interestName domainPrefix directoryPath doPreChunk idx hcmd hidx
    have hresp := createInterestResponse_of_extracted fs registry interestName domainPrefix
      directoryPath doPreChunk t idx hcmd hidx
    refine ⟨?_, ?_, ?_⟩
    · intro h1
      rw [hresp, hl.mpr h1]
    · intro h1 h2 fileName hfile
      rw [hresp, hf.mpr ⟨h1, h2⟩]
      simp only [hfile]
    · intro h1 h2
      rw [hresp, hn.mpr ⟨h1, h2⟩]

/-- Witness for C10: the token `Li` is dispatched as list. -/
theorem dispatch_spec_witness :
    (∀ c ∈ "Li".toList, c.toNat ≠ 0)
    ∧ tutorialCommon_CreateCommandStringFromName exampleShortListName exampleDomainPrefix
        = .ok "Li".toList
    ∧ IsCommandPrefix "Li".toList "list".toList
    ∧ _createInterestResponse.dispatch "Li".toList = Dispatch.list :=
  ⟨by decide, by rfl, by unfold IsCommandPrefix; decide,
   (dispatch_spec "Li".toList (by decide)).1.mpr (by unfold IsCommandPrefix; decide)⟩

/-- C9, as stated, fails: the request `lci:/ccnx/tutorial/bogus` has the unrecognized command
token `bogus`, and in both modes `_createInterestResponse` ends in the fatal assertion of
`tutorialCommon_GetChunkNumberFromName` instead of returning no response, because the chunk
number is extracted before the command is compared. -/
theorem unrecognized_command_fault :
    tutorialCommon_CreateCommandStringFromName exampleBogusNameNoChunk exampleDomainPrefix
        = .ok "bogus".toList
    ∧ strncasecmp "bogus".toList tutorialCommon_CommandList (strlen "bogus".toList) ≠ 0
    ∧ strncasecmp "bogus".toList tutorialCommon_CommandFetch (strlen "bogus".toList) ≠ 0
    ∧ _createInterestResponse emptyOrigin [] exampleBogusNameNoChunk exampleDomainPrefix
        "/srv".toList true = .error Fault.assertionFailed
    ∧ _createInterestResponse emptyOrigin [] exampleBogusNameNoChunk exampleDomainPrefix
        "/srv".toList false = .error Fault.assertionFailed
    ∧ _createInterestResponse emptyOrigin [] exampleBogusNameNoChunk exampleDomainPrefix
        "/srv".toList true ≠ .ok (none, []) := by
  refine ⟨by rfl, by decide, by decide, by rfl, by rfl, ?_⟩
  have h : _createInterestResponse emptyOrigin [] exampleBogusNameNoChunk exampleDomainPrefix
      "/srv".toList true = .error Fault.assertionFailed := by rfl
  rw [h]
  intro hcontra
  cases hcontra

/-- C9, amended: for a request name whose command token matches neither the list nor the fetch
command, `_createInterestResponse` extracts the chunk number first; when that succeeds (the
trailing segment is a CHUNK segment) the response is absent, not an error, in both modes,
whatever the state of the origin, and the registry is unchanged; when it fails, the failure is
the outcome. -/
theorem unrecognized_command_absent (fs : FileSystem) (registry : List ChunkList)
    (interestName domainPrefix : CCNxName) (directoryPath : CStr) (command : CStr)
    (hcmd : tutorialCommon_CreateCommandStringFromName interestName domainPrefix = .ok command)
    (hlist : strncasecmp command tutorialCommon_CommandList (strlen command) ≠ 0)
    (hfetch : strncasecmp command tutorialCommon_CommandFetch (strlen command) ≠ 0) :
    (∀ (base : CCNxName) (chunkSegment : CCNxNameSegment),
        interestName = base ++ [chunkSegment] →
        ccnxNameSegment_GetType chunkSegment = CCNxNameLabelType.CHUNK →
        ∀ (fs' : FileSystem) (doPreChunk : Bool),
          _createInterestResponse fs registry interestName domainPrefix directoryPath doPreChunk
              = .ok (none, registry)
          ∧ _createInterestResponse fs' registry interestName domainPrefix directoryPath doPreChunk
              = .ok (none, registry))
    ∧ (∀ (e : Fault) (doPreChunk : Bool),
        tutorialCommon_GetChunkNumberFromName interestName = .error e →
          _createInterestResponse fs registry interestName domainPrefix directoryPath doPreChunk
            = .error e) := by
  have hdispatch : _createInterestResponse.dispatch command = Dispatch.nothing := by
    unfold _createInterestResponse.dispatch
    rw [if_neg hlist, if_neg hfetch]
  constructor
  · intro base chunkSegment hname htype fs' doPreChunk
    have hidx : tutorialCommon_GetChunkNumberFromName interestName
        = .ok (ccnxNameSegmentNumber_Value chunkSegment) := by
      unfold tutorialCommon_GetChunkNumberFromName
      have hlen : 1 ≤ ccnxName_GetSegmentCount interestName := by
        rw [hname]; simp [ccnxName_GetSegmentCount]
      have hget : ccnxName_GetSegment interestName (sizeSub (ccnxName_GetSegmentCount interestName) 1)
          = .ok chunkSegment := by
        unfold sizeSub
        rw [if_pos hlen]
        unfold ccnxName_GetSegment ccnxName_GetSegmentCount
        rw [hname]
        simp
      simp only [hget, htype, if_true]
    constructor
    · rw [createInterestResponse_of_extracted fs registry interestName domainPrefix directoryPath
        doPreChunk command _ hcmd hidx, hdispatch]
    · rw [createInterestResponse_of_extracted fs' registry interestName domainPrefix directoryPath
        doPreChunk command _ hcmd hidx, hdispatch]
  · intro e doPreChunk herr
    unfold _createInterestResponse
    simp only [hcmd, herr]

/-- Witness for the amended C9: the request `lci:/ccnx/tutorial/bogus/<chunk 0>`. -/
theorem unrecognized_command_absent_witness :
    _createInterestResponse exampleOrigin [exampleEntry] exampleBogusName exampleDomainPrefix
        "/srv".toList true = .ok (none, [exampleEntry])
    ∧ _createInterestResponse emptyOrigin [exampleEntry] exampleBogusName exampleDomainPrefix
        "/srv".toList true = .ok (none, [exampleEntry]) :=
  (unrecognized_command_absent exampleOrigin [exampleEntry] exampleBogusName exampleDomainPrefix
    "/srv".toList "bogus".toList (by rfl) (by decide) (by decide)).1
    (exampleDomainPrefix ++ [nameSegment "bogus"])
    (ccnxNameSegmentNumber_Create CCNxNameLabelType.CHUNK 0) (by rfl) (by rfl) emptyOrigin true

/-- On a name with at least one segment `tutorialCommon_GetChunkNumberFromName` looks at the
last segment: its number when it is a CHUNK segment, the failed assertion otherwise. -/
theorem getChunkNumberFromName_snoc (base : CCNxName) (last : CCNxNameSegment) :
    tutorialCommon_GetChunkNumberFromName (base ++ [last])
      = if last.type = CCNxNameLabelType.CHUNK then .ok (ccnxNameSegmentNumber_Value last)
        else .error Fault.assertionFailed := by
  unfold tutorialCommon_GetChunkNumberFromName
  have hlen : 1 ≤ ccnxName_GetSegmentCount (base ++ [last]) := by
    simp [ccnxName_GetSegmentCount]
  have hget : ccnxName_GetSegment (base ++ [last])
      (sizeSub (ccnxName_GetSegmentCount (base ++ [last])) 1) = .ok last := by
    unfold sizeSub
    rw [if_pos hlen]
    unfold ccnxName_GetSegment ccnxName_GetSegmentCount
    simp
  simp only [hget, ccnxNameSegment_GetType]

/-- C11: `tutorialCommon_GetChunkNumberFromName` on the name with no segments. The index
`numberOfSegmentsInName - 1` is computed in `size_t` and wraps to `2^64 - 1`; the name is indexed
with it, and the outcome is that of the out-of-range access, not the function's assertion on
the CHUNK type. On every name with a last segment the function does what the claim says: the
number of that segment when it is a CHUNK segment, the failed assertion otherwise. -/
theorem getChunkNumberFromName_no_segments :
    sizeSub (ccnxName_GetSegmentCount ccnxName_Create) 1 = 18446744073709551615
    ∧ ccnxName_GetSegment ccnxName_Create 18446744073709551615 = .error Fault.outOfBounds
    ∧ tutorialCommon_GetChunkNumberFromName ccnxName_Create = .error Fault.outOfBounds
    ∧ tutorialCommon_GetChunkNumberFromName ccnxName_Create ≠ .error Fault.assertionFailed
    ∧ (∀ (base : CCNxName) (last : CCNxNameSegment),
        tutorialCommon_GetChunkNumberFromName (base ++ [last])
          = if last.type = CCNxNameLabelType.CHUNK then .ok (ccnxNameSegmentNumber_Value last)
            else .error Fault.assertionFailed) := by
  have hidx : sizeSub (ccnxName_GetSegmentCount ccnxName_Create) 1 = 18446744073709551615 := by
    decide
  have hrun : tutorialCommon_GetChunkNumberFromName ccnxName_Create = .error Fault.outOfBounds := by
    unfold tutorialCommon_GetChunkNumberFromName
    simp only [hidx]
    rfl
  refine ⟨hidx, rfl, hrun, ?_, getChunkNumberFromName_snoc⟩
  rw [hrun]
  intro h
  cases h

/-- C12: `tutorialCommon_CreateWithBaseName` on the name with no segments. The loop bound
`numberOfSegmentsInName - 1` is computed in `size_t` and wraps to `2^64 - 1`, so the loop body
runs and asks for segment 0 of a name that has none: the call ends in the out-of-range access
and does not return the empty name. On every name with a last segment the function returns
the segments before the last, in order. -/
theorem createWithBaseName_no_segments :
    sizeSub (ccnxName_GetSegmentCount ccnxName_Create) 1 = 18446744073709551615
    ∧ ccnxName_GetSegment ccnxName_Create 0 = .error Fault.outOfBounds
    ∧ tutorialCommon_CreateWithBaseName ccnxName_Create = .error Fault.outOfBounds
    ∧ tutorialCommon_CreateWithBaseName ccnxName_Create ≠ .ok ccnxName_Create
    ∧ (∀ (base : CCNxName) (last : CCNxNameSegment),
        tutorialCommon_CreateWithBaseName (base ++ [last]) = .ok base
        ∧ ccnxName_Append base last = base ++ [last]) := by
  have hidx : sizeSub (ccnxName_GetSegmentCount ccnxName_Create) 1 = 18446744073709551615 := by
    decide
  have hrun : tutorialCommon_CreateWithBaseName ccnxName_Create = .error Fault.outOfBounds := by
    unfold tutorialCommon_CreateWithBaseName
    simp only [hidx]
    have hsucc : (18446744073709551615 : Nat) = 18446744073709551614 + 1 := by decide
    rw [hsucc]
    unfold tutorialCommon_CreateWithBaseName.loop
    rfl
  refine ⟨hidx, rfl, hrun, ?_, ?_⟩
  · rw [hrun]
    intro h
    cases h
  · intro base last
    refine ⟨?_, rfl⟩
    rw [createWithBaseName_eq (base ++ [last]) (by simp)]
    simp

/-- The chunk count is a positive `uint64_t` value. -/
theorem getNumberOfChunksRequired_bounds (d c : Nat) :
    1 ≤ _getNumberOfChunksRequired d c ∧ _getNumberOfChunksRequired d c < UINT64_SIZE := by
  unfold _getNumberOfChunksRequired
  simp only []
  have hU : 1 < UINT64_SIZE := by unfold UINT64_SIZE; decide
  have hmod := Nat.mod_lt (d / c + if d % c > 0 then 1 else 0) (by omega : UINT64_SIZE > 0)
  generalize (d / c + if d % c > 0 then 1 else 0) % UINT64_SIZE = k at hmod ⊢
  by_cases hk : k = 0
  · rw [if_pos hk]; omega
  · rw [if_neg hk]; omega

/-- The final chunk number of a file is one less than the chunk count of its size. -/
theorem getFinalChunkNumberOfFile_succ (fs : FileSystem) (path : CStr) (c : Nat) :
    _getFinalChunkNumberOfFile fs path c + 1
      = _getNumberOfChunksRequired (tutorialFileIO_GetFileSize fs path) c := by
  unfold _getFinalChunkNumberOfFile
  simp only []
  have hb := getNumberOfChunksRequired_bounds (tutorialFileIO_GetFileSize fs path) c
  split <;> omega

/-- The final chunk number of a file is a `uint64_t` value. -/
theorem getFinalChunkNumberOfFile_lt (fs : FileSystem) (path : CStr) (c : Nat) :
    _getFinalChunkNumberOfFile fs path c < UINT64_SIZE := by
  have hs := getFinalChunkNumberOfFile_succ fs path c
  have hb := getNumberOfChunksRequired_bounds (tutorialFileIO_GetFileSize fs path) c
  omega

/-- Leading zero bytes do not change the number a byte sequence holds. -/
theorem value_foldl_dropWhile (l : List Byte) :
    (l.dropWhile (fun b => decide (b = 0))).foldl
        (fun result b => (result * 256 + b.val) % UINT64_SIZE) 0
      = l.foldl (fun result b => (result * 256 + b.val) % UINT64_SIZE) 0 := by
  induction l with
  | nil => rfl
  | cons b rest ih =>
    by_cases hb : b = 0
    · subst hb
      simp only [List.dropWhile_cons, decide_True, if_true, List.foldl_cons]
      rw [ih]
      rfl
    · simp only [List.dropWhile_cons, hb, decide_False]
      rfl

/-- The segment `ccnxNameSegmentNumber_Create` makes for a 64-bit number holds that number. -/
theorem numberSegment_roundTrip (type : CCNxNameLabelType) (i : Nat) (hi : i < UINT64_SIZE) :
    ccnxNameSegmentNumber_Value (ccnxNameSegmentNumber_Create type i) = i := by
  unfold ccnxNameSegmentNumber_Value ccnxNameSegmentNumber_Create ccnxNameSegmentNumber_Bytes
  simp only []
  have hfull : ((List.range 8).reverse.map (fun k => (Fin.ofNat (i / 256 ^ k) : Byte))).foldl
      (fun result b => (result * 256 + b.val) % UINT64_SIZE) 0 = i := by
    have hr : (List.range 8).reverse = [7, 6, 5, 4, 3, 2, 1, 0] := by decide
    rw [hr]
    simp only [List.map_cons, List.map_nil, List.foldl_cons, List.foldl_nil, Fin.ofNat]
    unfold UINT64_SIZE at *
    norm_num
    omega
  rw [← value_foldl_dropWhile] at hfull
  split
  · rename_i hnil
    rw [hnil] at hfull
    simp only [List.foldl_cons, List.foldl_nil] at hfull ⊢
    rw [← hfull]
    rfl
  · rename_i b bs hcons
    rw [hcons] at hfull
    exact hfull

/-- The chunk number read back from a name that ends in the CHUNK segment made for `i`. -/
theorem getChunkNumberFromName_chunk (base : CCNxName) (i : Nat) (hi : i < UINT64_SIZE) :
    tutorialCommon_GetChunkNumberFromName
        (base ++ [ccnxNameSegmentNumber_Create CCNxNameLabelType.CHUNK i]) = .ok i := by
  rw [getChunkNumberFromName_snoc]
  have htype : (ccnxNameSegmentNumber_Create CCNxNameLabelType.CHUNK i).type
      = CCNxNameLabelType.CHUNK := rfl
  rw [if_pos htype, numberSegment_roundTrip _ i hi]

/-- A chunk list that `_chunkFileIntoMemory` returns satisfies the entry invariant under any
key, and has one chunk more than the final chunk number of the file at that moment. -/
theorem entryInvariant_built (fs : FileSystem) (path : CStr) (name : CCNxName)
    (chunks : List CCNxContentObject) (key : CStr)
    (hbuilt : _chunkFileIntoMemory fs path name = .ok (some chunks)) :
    chunks.length = _getFinalChunkNumberOfFile fs path tutorialCommon_ChunkSize + 1
    ∧ EntryInvariant (ChunkList.mk key chunks) := by
  obtain ⟨bytes, baseName, _, hchunks⟩ := chunkFileIntoMemory_some fs path name chunks hbuilt
  have hlt := getFinalChunkNumberOfFile_lt fs path tutorialCommon_ChunkSize
  generalize _getFinalChunkNumberOfFile fs path tutorialCommon_ChunkSize = F at hchunks hlt ⊢
  subst hchunks
  refine ⟨by simp, ?_, ?_⟩
  · simp
  · intro i h
    have hi : i < F + 1 := by simpa using h
    have hget : ((List.range (F + 1)).map (fileChunkObject baseName bytes F)).get ⟨i, h⟩
        = fileChunkObject baseName bytes F i := by
      rw [List.get_eq_getElem]
      simp only [List.getElem_map, List.getElem_range]
    simp only [hget]
    refine ⟨by simp [fileChunkObject], ?_, ?_⟩
    · simp only [fileChunkObject, List.getLast?_concat]
    · simp only [fileChunkObject]
      rw [getChunkNumberFromName_chunk baseName i (by omega)]
      rfl

/-- How a pre-chunked request changes the registry: not at all when the key is found or the
file is unavailable, by one appended entry with that key, built from the file, otherwise. -/
theorem preChunking_registry_step (fs : FileSystem) (registry registry' : List ChunkList)
    (name : CCNxName) (directoryPath fileName : CStr) (idx : Nat)
    (r : Option CCNxContentObject)
    (hcall : _createFetchResponseWithPreChunking fs registry name directoryPath fileName idx
      = .ok (r, registry')) :
    registry' = registry
    ∨ (_createFetchResponseWithPreChunking.find registry fileName = none
        ∧ ∃ chunks, _chunkFileIntoMemory fs (fullFilePathOf directoryPath fileName) name
              = .ok (some chunks)
            ∧ registry' = registry ++ [ChunkList.mk fileName chunks]) := by
  cases hfind : _createFetchResponseWithPreChunking.find registry fileName with
  | some entry =>
    rw [preChunking_hit fs registry name directoryPath fileName idx entry hfind] at hcall
    injection hcall with h1
    injection h1 with _ h3
    exact Or.inl h3.symm
  | none =>
    cases hbuild : _chunkFileIntoMemory fs (fullFilePathOf directoryPath fileName) name with
    | error e =>
      unfold _createFetchResponseWithPreChunking
        _createFetchResponseWithPreChunking.getOrBuild at hcall
      simp [hfind, hbuild] at hcall
    | ok built =>
      cases built with
      | none =>
        unfold _createFetchResponseWithPreChunking
          _createFetchResponseWithPreChunking.getOrBuild at hcall
        simp only [hfind, hbuild] at hcall
        injection hcall with h1
        injection h1 with _ h3
        exact Or.inl h3.symm
      | some chunks =>
        refine Or.inr ⟨rfl, chunks, rfl, ?_⟩
        unfold _createFetchResponseWithPreChunking
          _createFetchResponseWithPreChunking.getOrBuild at hcall
        simp only [hfind, hbuild, parcArrayList_Add] at hcall
        split at hcall
        · injection hcall with h1
          injection h1 with _ h3
          exact h3.symm
        · injection hcall with h1
          injection h1 with _ h3
          exact h3.symm

/-- How any request changes the registry: not at all, or by one appended entry whose key was
not in the registry and whose chunks `_chunkFileIntoMemory` built. -/
theorem createInterestResponse_registry_step (fs : FileSystem) (registry registry' : List ChunkList)
    (interestName domainPrefix : CCNxName) (directoryPath : CStr) (doPreChunk : Bool)
    (r : Option CCNxContentObject)
    (hcall : _createInterestResponse fs registry interestName domainPrefix directoryPath doPreChunk
      = .ok (r, registry')) :
    registry' = registry
    ∨ ∃ fileName chunks,
        _createFetchResponseWithPreChunking.find registry fileName = none
        ∧ _chunkFileIntoMemory fs (fullFilePathOf directoryPath fileName) interestName
            = .ok (some chunks)
        ∧ registry' = registry ++ [ChunkList.mk fileName chunks] := by
  unfold _createInterestResponse at hcall
  cases hcmd : tutorialCommon_CreateCommandStringFromName interestName domainPrefix with
  | error e => simp [hcmd] at hcall
  | ok command =>
    cases hidx : tutorialCommon_GetChunkNumberFromName interestName with
    | error e => simp [hcmd, hidx] at hcall
    | ok idx =>
      simp only [hcmd, hidx] at hcall
      cases hd : _createInterestResponse.dispatch command with
      | list =>
        simp only [hd] at hcall
        cases hl : _createListResponse fs interestName directoryPath idx with
        | error e => simp [hl] at hcall
        | ok result =>
          simp only [hl] at hcall
          injection hcall with h1
          injection h1 with _ h3
          exact Or.inl h3.symm
      | nothing =>
        simp only [hd] at hcall
        injection hcall with h1
        injection h1 with _ h3
        exact Or.inl h3.symm
      | fetch =>
        simp only [hd] at hcall
        cases hf : tutorialCommon_CreateFileNameFromName interestName with
        | error e => simp [hf] at hcall
        | ok fileName =>
          simp only [hf] at hcall
          cases doPreChunk with
          | false =>
            simp only [Bool.false_eq_true, if_false] at hcall
            injection hcall with h1
            injection h1 with _ h3
            exact Or.inl h3.symm
          | true =>
            simp only [if_true] at hcall
            rcases preChunking_registry_step fs registry registry' interestName directoryPath
              fileName idx r hcall with h | ⟨hmiss, chunks, hbuilt, hreg⟩
            · exact Or.inl h
            · exact Or.inr ⟨fileName, chunks, hmiss, hbuilt, hreg⟩

/-- A property of the registry that every answered request preserves holds after the whole
loop of `_receiveAndAnswerInterests`. -/
theorem receiveAndAnswerInterests_preserves (domainPrefix : CCNxName) (directoryPath : CStr)
    (doPreChunk : Bool) (P : List ChunkList → Prop)
    (hstep : ∀ (fs : FileSystem) (registry registry' : List ChunkList) (name : CCNxName)
      (r : Option CCNxContentObject), P registry →
      _createInterestResponse fs registry name domainPrefix directoryPath doPreChunk
        = .ok (r, registry') → P registry') :
    ∀ (interests : List InboundInterest) (result result' : Bool)
      (registry registry' : List ChunkList), P registry →
      _receiveAndAnswerInterests domainPrefix directoryPath doPreChunk interests result registry
        = .ok (result', registry') → P registry' := by
  intro interests
  induction interests with
  | nil =>
    intro result result' registry registry' hP hrun
    unfold _receiveAndAnswerInterests at hrun
    injection hrun with h1
    injection h1 with _ h3
    rw [← h3]
    exact hP
  | cons interest rest ih =>
    intro result result' registry registry' hP hrun
    unfold _receiveAndAnswerInterests at hrun
    cases hcall : _createInterestResponse interest.origin registry interest.name domainPrefix
        directoryPath doPreChunk with
    | error e => simp [hcall] at hrun
    | ok pair =>
      obtain ⟨response, registry1⟩ := pair
      simp only [hcall] at hrun
      exact ih _ result' registry1 registry'
        (hstep interest.origin registry registry1 interest.name response hP hcall) hrun

/-- Every answered request keeps the entry invariant on all entries of the registry. -/
theorem createInterestResponse_keeps_invariant (fs : FileSystem)
    (registry registry' : List ChunkList) (interestName domainPrefix : CCNxName)
    (directoryPath : CStr) (doPreChunk : Bool) (r : Option CCNxContentObject)
    (hinv : ∀ e ∈ registry, EntryInvariant e)
    (hcall : _createInterestResponse fs registry interestName domainPrefix directoryPath doPreChunk
      = .ok (r, registry')) :
    ∀ e ∈ registry', EntryInvariant e := by
  rcases createInterestResponse_registry_step fs registry registry' interestName domainPrefix
    directoryPath doPreChunk r hcall with h | ⟨fileName, chunks, _, hbuilt, hreg⟩
  · rw [h]; exact hinv
  · rw [hreg]
    intro e he
    rw [List.mem_append, List.mem_singleton] at he
    rcases he with he | he
    · exact hinv e he
    · rw [he]
      exact (entryInvariant_built fs _ interestName chunks fileName hbuilt).2

/-- C14: the invariant of a cache entry. It is established by `_chunkFileIntoMemory`: a list it
returns has exactly `finalChunkNumber + 1` chunks, with the final chunk number derived from
the size of the file at that moment, and satisfies `EntryInvariant`. It is kept by every
request: a request answered against a registry whose entries satisfy it leaves a registry
whose entries satisfy it and that still holds every earlier entry; hence it holds for every
entry after any sequence of requests from the empty registry. The invariant says: the chunk at
position `i` carries the final chunk number `length - 1`, and its name ends in the CHUNK
segment `i`, from which chunk number `i` is read back. -/
theorem cacheEntry_invariant (fs : FileSystem) (registry registry' : List ChunkList)
    (interestName domainPrefix : CCNxName) (directoryPath : CStr) (doPreChunk : Bool)
    (r : Option CCNxContentObject)
    (hinv : ∀ e ∈ registry, EntryInvariant e)
    (hcall : _createInterestResponse fs registry interestName domainPrefix directoryPath doPreChunk
      = .ok (r, registry')) :
    (∀ e ∈ registry', EntryInvariant e)
    ∧ (∀ e ∈ registry, e ∈ registry')
    ∧ (∀ (fs0 : FileSystem) (path0 : CStr) (name0 : CCNxName) (chunks : List CCNxContentObject)
        (key : CStr), _chunkFileIntoMemory fs0 path0 name0 = .ok (some chunks) →
          chunks.length = _getFinalChunkNumberOfFile fs0 path0 1200 + 1
          ∧ _getFinalChunkNumberOfFile fs0 path0 1200 + 1
              = _getNumberOfChunksRequired (tutorialFileIO_GetFileSize fs0 path0) 1200
          ∧ (∀ c ∈ chunks, c.finalChunkNumber = _getFinalChunkNumberOfFile fs0 path0 1200)
          ∧ (∃ bytes, fs0.file path0 = some bytes
              ∧ ∀ i, ∀ h : i < chunks.length,
                  (chunks.get ⟨i, h⟩).payload
                    = byteRange bytes (i * 1200) (min (i * 1200 + 1200) bytes.length))
          ∧ EntryInvariant (ChunkList.mk key chunks))
    ∧ (∀ (interests : List InboundInterest) (domain0 : CCNxName) (directory0 : CStr)
        (mode result result' : Bool) (reached : List ChunkList),
        _receiveAndAnswerInterests domain0 directory0 mode interests result [] = .ok (result', reached) →
          ∀ e ∈ reached, EntryInvariant e)
    ∧ (∀ e, EntryInvariant e → ∀ i, ∀ h : i < e.chunks.length,
        (e.chunks.get ⟨i, h⟩).finalChunkNumber = e.chunks.length - 1
        ∧ (∃ base, (e.chunks.get ⟨i, h⟩).name
              = base ++ [ccnxNameSegmentNumber_Create CCNxNameLabelType.CHUNK i])
        ∧ tutorialCommon_GetChunkNumberFromName (e.chunks.get ⟨i, h⟩).name = .ok i) := by
  refine ⟨createInterestResponse_keeps_invariant fs registry registry' interestName domainPrefix
    directoryPath doPreChunk r hinv hcall, ?_, ?_, ?_, ?_⟩
  · intro e he
    rcases createInterestResponse_registry_step fs registry registry' interestName domainPrefix
      directoryPath doPreChunk r hcall with h | ⟨fileName, chunks, _, _, hreg⟩
    · rw [h]; exact he
    · rw [hreg]
      exact List.mem_append_left _ he
  · intro fs0 path0 name0 chunks key hbuilt
    have hb := entryInvariant_built fs0 path0 name0 chunks key hbuilt
    unfold tutorialCommon_ChunkSize at hb
    obtain ⟨bytes, baseName, hfile0, hchunks⟩ :=
      chunkFileIntoMemory_some fs0 path0 name0 chunks hbuilt
    unfold tutorialCommon_ChunkSize at hchunks
    refine ⟨hb.1, getFinalChunkNumberOfFile_succ fs0 path0 1200, ?_, ⟨bytes, hfile0, ?_⟩, hb.2⟩
    · intro c hc
      rw [hchunks, List.mem_map] at hc
      obtain ⟨j, _, hj⟩ := hc
      rw [← hj]
      rfl
    · subst hchunks
      intro i h
      rw [List.get_eq_getElem]
      simp only [List.getElem_map, List.getElem_range]
      rfl
  · intro interests domain0 directory0 mode result result' reached hrun
    exact receiveAndAnswerInterests_preserves domain0 directory0 mode
      (fun reg => ∀ e ∈ reg, EntryInvariant e)
      (fun fs1 reg reg1 name1 r1 hP hstep =>
        createInterestResponse_keeps_invariant fs1 reg reg1 name1 domain0 directory0 mode r1
          hP hstep)
      interests result result' [] reached (fun e he => absurd he (List.not_mem_nil e)) hrun
  · intro e he i h
    obtain ⟨_, hall⟩ := he
    obtain ⟨h1, h2, h3⟩ := hall i h
    refine ⟨h1, List.getLast?_eq_some_iff.mp h2, ?_⟩
    cases hres : tutorialCommon_GetChunkNumberFromName (e.chunks.get ⟨i, h⟩).name with
    | error err =>
      rw [hres] at h3
      cases h3
    | ok v =>
      rw [hres] at h3
      injection h3 with h4
      rw [h4]

/-- Witness for C14: the registry holding the entry built for the empty file, asked for chunk 0
of that file again. -/
theorem cacheEntry_invariant_witness :
    (∀ e ∈ [exampleEntry], EntryInvariant e)
    ∧ _createInterestResponse exampleOrigin [exampleEntry] exampleFetchEmptyName exampleDomainPrefix
        "/srv".toList true = .ok (exampleEntry.chunks[0]?, [exampleEntry])
    ∧ (∀ e ∈ [exampleEntry], EntryInvariant e)
    ∧ (∀ e ∈ [exampleEntry], e ∈ [exampleEntry])
    ∧ (∀ (fs0 : FileSystem) (path0 : CStr) (name0 : CCNxName) (chunks : List CCNxContentObject)
        (key : CStr), _chunkFileIntoMemory fs0 path0 name0 = .ok (some chunks) →
          chunks.length = _getFinalChunkNumberOfFile fs0 path0 1200 + 1
          ∧ _getFinalChunkNumberOfFile fs0 path0 1200 + 1
              = _getNumberOfChunksRequired (tutorialFileIO_GetFileSize fs0 path0) 1200
          ∧ (∀ c ∈ chunks, c.finalChunkNumber = _getFinalChunkNumberOfFile fs0 path0 1200)
          ∧ (∃ bytes, fs0.file path0 = some bytes
              ∧ ∀ i, ∀ h : i < chunks.length,
                  (chunks.get ⟨i, h⟩).payload
                    = byteRange bytes (i * 1200) (min (i * 1200 + 1200) bytes.length))
          ∧ EntryInvariant (ChunkList.mk key chunks))
    ∧ (∀ (interests : List InboundInterest) (domain0 : CCNxName) (directory0 : CStr)
        (mode result result' : Bool) (reached : List ChunkList),
        _receiveAndAnswerInterests domain0 directory0 mode interests result [] = .ok (result', reached) →
          ∀ e ∈ reached, EntryInvariant e)
    ∧ (∀ e, EntryInvariant e → ∀ i, ∀ h : i < e.chunks.length,
        (e.chunks.get ⟨i, h⟩).finalChunkNumber = e.chunks.length - 1
        ∧ (∃ base, (e.chunks.get ⟨i, h⟩).name
              = base ++ [ccnxNameSegmentNumber_Create CCNxNameLabelType.CHUNK i])
        ∧ tutorialCommon_GetChunkNumberFromName (e.chunks.get ⟨i, h⟩).name = .ok i) :=
  ⟨by decide, by rfl,
   cacheEntry_invariant exampleOrigin [exampleEntry] [exampleEntry] exampleFetchEmptyName
     exampleDomainPrefix "/srv".toList true exampleEntry.chunks[0]? (by decide) (by rfl)⟩

/-- The search misses exactly when no entry of the registry has the key. -/
theorem find_eq_none_iff (registry : List ChunkList) (fileName : CStr) :
    _createFetchResponseWithPreChunking.find registry fileName = none
      ↔ fileName ∉ registry.map (fun e => e.fileName) := by
  induction registry with
  | nil => simp [_createFetchResponseWithPreChunking.find]
  | cons e rest ih =>
    unfold _createFetchResponseWithPreChunking.find
    by_cases he : e.fileName = fileName
    · rw [if_pos he]
      simp [he]
    · rw [if_neg he, ih]
      simp only [List.map_cons, List.mem_cons, not_or]
      constructor
      · intro h
        exact ⟨fun h2 => he h2.symm, h⟩
      · intro h
        exact h.2

/-- An entry the search finds is still the one found after entries are appended. -/
theorem find_append_of_hit (registry rest : List ChunkList) (fileName : CStr) (entry : ChunkList)
    (hfind : _createFetchResponseWithPreChunking.find registry fileName = some entry) :
    _createFetchResponseWithPreChunking.find (registry ++ rest) fileName = some entry := by
  induction registry with
  | nil => cases hfind
  | cons e tail ih =>
    unfold _createFetchResponseWithPreChunking.find at hfind
    rw [List.cons_append]
    unfold _createFetchResponseWithPreChunking.find
    by_cases he : e.fileName = fileName
    · rw [if_pos he] at hfind
      rw [if_pos he]
      exact hfind
    · rw [if_neg he] at hfind
      rw [if_neg he]
      exact ih hfind

/-- Every answered request keeps the keys of the registry distinct. -/
theorem createInterestResponse_keeps_nodup (fs : FileSystem)
    (registry registry' : List ChunkList) (interestName domainPrefix : CCNxName)
    (directoryPath : CStr) (doPreChunk : Bool) (r : Option CCNxContentObject)
    (hnodup : (registry.map (fun e => e.fileName)).Nodup)
    (hcall : _createInterestResponse fs registry interestName domainPrefix directoryPath doPreChunk
      = .ok (r, registry')) :
    (registry'.map (fun e => e.fileName)).Nodup := by
  rcases createInterestResponse_registry_step fs registry registry' interestName domainPrefix
    directoryPath doPreChunk r hcall with h | ⟨fileName, chunks, hmiss, _, hreg⟩
  · rw [h]; exact hnodup
  · rw [hreg, List.map_append, List.map_cons, List.map_nil]
    have hnot := (find_eq_none_iff registry fileName).mp hmiss
    have hconcat := List.Nodup.concat hnot hnodup
    rwa [List.concat_eq_append] at hconcat

/-- Every answered request leaves a registry that extends the one it started from. -/
theorem createInterestResponse_extends (fs : FileSystem)
    (registry registry' : List ChunkList) (interestName domainPrefix : CCNxName)
    (directoryPath : CStr) (doPreChunk : Bool) (r : Option CCNxContentObject)
    (hcall : _createInterestResponse fs registry interestName domainPrefix directoryPath doPreChunk
      = .ok (r, registry')) :
    registry <+: registry' := by
  rcases createInterestResponse_registry_step fs registry registry' interestName domainPrefix
    directoryPath doPreChunk r hcall with h | ⟨fileName, chunks, _, _, hreg⟩
  · rw [h]
  · rw [hreg]
    exact List.prefix_append _ _

/-- The loop of `_receiveAndAnswerInterests` over two runs of interests, one after the other. -/
theorem receiveAndAnswerInterests_append (domainPrefix : CCNxName) (directoryPath : CStr)
    (doPreChunk : Bool) (first second : List InboundInterest) :
    ∀ (result : Bool) (registry : List ChunkList),
      _receiveAndAnswerInterests domainPrefix directoryPath doPreChunk (first ++ second) result
          registry
        = match _receiveAndAnswerInterests domainPrefix directoryPath doPreChunk first result
            registry with
          | .ok (result1, registry1) =>
            _receiveAndAnswerInterests domainPrefix directoryPath doPreChunk second result1
              registry1
          | .error e => .error e := by
  induction first with
  | nil =>
    intro result registry
    simp [_receiveAndAnswerInterests]
  | cons interest rest ih =>
    intro result registry
    rw [List.cons_append, _receiveAndAnswerInterests.eq_2, _receiveAndAnswerInterests.eq_2]
    cases hcall : _createInterestResponse interest.origin registry interest.name domainPrefix
        directoryPath doPreChunk with
    | error e => rfl
    | ok pair =>
      obtain ⟨response, registry1⟩ := pair
      simp only []
      exact ih _ registry1

/-- In a registry with distinct keys, entries at different positions have different keys. -/
theorem nodup_keys_index (registry : List ChunkList)
    (hnodup : (registry.map (fun e => e.fileName)).Nodup) :
    ∀ (i j : Nat) (e1 e2 : ChunkList), registry[i]? = some e1 → registry[j]? = some e2 →
      e1.fileName = e2.fileName → i = j := by
  intro i j e1 e2 h1 h2 hk
  obtain ⟨hi0, h1'⟩ := List.getElem?_eq_some.mp h1
  obtain ⟨hj0, h2'⟩ := List.getElem?_eq_some.mp h2
  have hi : i < (registry.map (fun e => e.fileName)).length := by
    rw [List.length_map]; exact hi0
  have hj : j < (registry.map (fun e => e.fileName)).length := by
    rw [List.length_map]; exact hj0
  apply (@List.Nodup.getElem_inj_iff _ _ hnodup i hi j hj).mp
  simp only [List.getElem_map]
  rw [h1', h2', hk]

/-- C15: the invariant of the registry `_chunksByFileName`. After any sequence of interests
answered in pre-chunked mode from the empty registry, no two entries have the same key; the
registry reached after any initial part of the sequence is an initial part of the final one,
and every entry found under a key then is still the entry found under it at the end. For a
single pre-chunked fetch request: a key that is present leaves the registry unchanged, a key
that is absent adds nothing or one entry with that key at the end, and every entry found under
any key before is the entry found under it after, so no key is built a second time. -/
theorem registry_invariant (interests : List InboundInterest) (domainPrefix : CCNxName)
    (directoryPath : CStr) (result result' : Bool) (registry' : List ChunkList)
    (hrun : _receiveAndAnswerInterests domainPrefix directoryPath true interests result []
      = .ok (result', registry')) :
    (registry'.map (fun e => e.fileName)).Nodup
    ∧ (∀ (i j : Nat) (e1 e2 : ChunkList), registry'[i]? = some e1 → registry'[j]? = some e2 →
        e1.fileName = e2.fileName → i = j)
    ∧ (∀ (first second : List InboundInterest) (result1 : Bool) (registry1 : List ChunkList),
        interests = first ++ second →
        _receiveAndAnswerInterests domainPrefix directoryPath true first result []
          = .ok (result1, registry1) →
          registry1 <+: registry'
          ∧ ∀ key e, _createFetchResponseWithPreChunking.find registry1 key = some e →
              _createFetchResponseWithPreChunking.find registry' key = some e)
    ∧ (∀ (fs : FileSystem) (registry registry1 : List ChunkList) (name : CCNxName)
        (directory fileName : CStr) (idx : Nat) (r : Option CCNxContentObject),
        _createFetchResponseWithPreChunking fs registry name directory fileName idx
          = .ok (r, registry1) →
          (∀ e, _createFetchResponseWithPreChunking.find registry fileName = some e →
              registry1 = registry)
          ∧ (_createFetchResponseWithPreChunking.find registry fileName = none →
              registry1 = registry
              ∨ ∃ chunks, registry1 = registry ++ [ChunkList.mk fileName chunks])
          ∧ registry <+: registry1
          ∧ registry1.length ≤ registry.length + 1
          ∧ ∀ key e, _createFetchResponseWithPreChunking.find registry key = some e →
              _createFetchResponseWithPreChunking.find registry1 key = some e) := by
  have hnodup : (registry'.map (fun e => e.fileName)).Nodup :=
    receiveAndAnswerInterests_preserves domainPrefix directoryPath true
      (fun reg => (reg.map (fun e => e.fileName)).Nodup)
      (fun fs1 reg reg1 name1 r1 hP hstep =>
        createInterestResponse_keeps_nodup fs1 reg reg1 name1 domainPrefix directoryPath true r1
          hP hstep)
      interests result result' [] registry' List.nodup_nil hrun
  refine ⟨hnodup, nodup_keys_index registry' hnodup, ?_, ?_⟩
  · intro first second result1 registry1 hsplit hfirst
    rw [hsplit, receiveAndAnswerInterests_append, hfirst] at hrun
    simp only [] at hrun
    have hext : registry1 <+: registry' :=
      receiveAndAnswerInterests_preserves domainPrefix directoryPath true
        (fun reg => registry1 <+: reg)
        (fun fs1 reg reg1 name1 r1 hP hstep =>
          List.IsPrefix.trans hP
            (createInterestResponse_extends fs1 reg reg1 name1 domainPrefix directoryPath true r1
              hstep))
        second result1 result' registry1 registry' (List.prefix_refl _) hrun
    refine ⟨hext, ?_⟩
    intro key e hfind
    obtain ⟨rest, hrest⟩ := hext
    rw [← hrest]
    exact find_append_of_hit registry1 rest key e hfind
  · intro fs registry registry1 name directory fileName idx r hcall
    have hstep := preChunking_registry_step fs registry registry1 name directory fileName idx r
      hcall
    have hext : registry <+: registry1 := by
      rcases hstep with h | ⟨_, chunks, _, hreg⟩
      · rw [h]
      · rw [hreg]; exact List.prefix_append _ _
    refine ⟨?_, ?_, hext, ?_, ?_⟩
    · intro e hfind
      rcases hstep with h | ⟨hmiss, _⟩
      · exact h
      · rw [hfind] at hmiss
        cases hmiss
    · intro _
      rcases hstep with h | ⟨_, chunks, _, hreg⟩
      · exact Or.inl h
      · exact Or.inr ⟨chunks, hreg⟩
    · rcases hstep with h | ⟨_, chunks, _, hreg⟩
      · rw [h]; omega
      · rw [hreg]; simp
    · intro key e hfind
      obtain ⟨rest, hrest⟩ := hext
      rw [← hrest]
      exact find_append_of_hit registry rest key e hfind

/-- Witness for C15: `/srv/empty` is asked for three times, while it is missing, once it
exists, and after it is gone again; the registry ends with the one entry built in between. -/
theorem registry_invariant_witness :
    _receiveAndAnswerInterests exampleDomainPrefix "/srv".toList true exampleInterests false []
        = .ok (true, [exampleEntry])
    ∧ ([exampleEntry].map (fun e => e.fileName)).Nodup
    ∧ (∀ (i j : Nat) (e1 e2 : ChunkList), [exampleEntry][i]? = some e1 →
        [exampleEntry][j]? = some e2 → e1.fileName = e2.fileName → i = j)
    ∧ (∀ (first second : List InboundInterest) (result1 : Bool) (registry1 : List ChunkList),
        exampleInterests = first ++ second →
        _receiveAndAnswerInterests exampleDomainPrefix "/srv".toList true first false []
          = .ok (result1, registry1) →
          registry1 <+: [exampleEntry]
          ∧ ∀ key e, _createFetchResponseWithPreChunking.find registry1 key = some e →
              _createFetchResponseWithPreChunking.find [exampleEntry] key = some e)
    ∧ (∀ (fs : FileSystem) (registry registry1 : List ChunkList) (name : CCNxName)
        (directory fileName : CStr) (idx : Nat) (r : Option CCNxContentObject),
        _createFetchResponseWithPreChunking fs registry name directory fileName idx
          = .ok (r, registry1) →
          (∀ e, _createFetchResponseWithPreChunking.find registry fileName = some e →
              registry1 = registry)
          ∧ (_createFetchResponseWithPreChunking.find registry fileName = none →
              registry1 = registry
              ∨ ∃ chunks, registry1 = registry ++ [ChunkList.mk fileName chunks])
          ∧ registry <+: registry1
          ∧ registry1.length ≤ registry.length + 1
          ∧ ∀ key e, _createFetchResponseWithPreChunking.find registry key = some e →
              _createFetchResponseWithPreChunking.find registry1 key = some e) :=
  ⟨by rfl,
   registry_invariant exampleInterests exampleDomainPrefix "/srv".toList false true
     [exampleEntry] (by rfl)⟩

/-- What `_createFetchResponse` returns for an available file: the chunk read at the requested
index under the request's name, with the final chunk number of the file at that moment. -/
theorem createFetchResponse_available (fs : FileSystem) (name : CCNxName)
    (directoryPath fileName : CStr) (idx : Nat) (bytes : List Byte)
    (hfile : fs.file (fullFilePathOf directoryPath fileName) = some bytes) :
    _createFetchResponse fs name directoryPath fileName idx
      = some { name := name,
               payload := byteRange bytes (idx * 1200) (min (idx * 1200 + 1200) bytes.length),
               finalChunkNumber := _getFinalChunkNumberOfFile fs
                 (fullFilePathOf directoryPath fileName) tutorialCommon_ChunkSize } := by
  unfold _createFetchResponse
  simp only [tutorialFileIO_IsFileAvailable, hfile, Option.isSome_some, if_true,
    getFileChunk_eq fs _ bytes hfile idx, _createContentObject, parcBuffer_Contents_Wrap]

/-- For an unavailable file `_createFetchResponse` returns `NULL`. -/
theorem createFetchResponse_unavailable (fs : FileSystem) (name : CCNxName)
    (directoryPath fileName : CStr) (idx : Nat)
    (hfile : fs.file (fullFilePathOf directoryPath fileName) = none) :
    _createFetchResponse fs name directoryPath fileName idx = none := by
  unfold _createFetchResponse
  simp [tutorialFileIO_IsFileAvailable, hfile]

/-- A name from which a target file token can be taken has at least one segment. -/
theorem ne_nil_of_createFileName (name : CCNxName) (fileName : CStr)
    (h : tutorialCommon_CreateFileNameFromName name = .ok fileName) : name ≠ [] := by
  intro hnil
  rw [hnil] at h
  unfold tutorialCommon_CreateFileNameFromName ccnxName_GetSegment at h
  simp at h

/-- C16 (mode equivalence): for an available origin with content `bytes` that stays as it is
and an index up to the final chunk number of that content, `ChunksRequired(length, 1200) - 1`,
the on-demand path `_createFetchResponse` and the pre-chunked path
`_createFetchResponseWithPreChunking`, from a registry that has no entry for the key or whose
entry for it was built from that same origin, both return a chunk, with the same payload
bytes, the bytes `[i*1200, min(i*1200 + 1200, length))`, and the same final chunk number,
`ChunksRequired(length, 1200) - 1`. When the origin is unavailable and the key is not cached,
both return nothing. -/
theorem mode_equivalence (fs : FileSystem) (registry : List ChunkList) (name : CCNxName)
    (directoryPath fileName : CStr) (bytes : List Byte) (i : Nat)
    (hfile : fs.file (fullFilePathOf directoryPath fileName) = some bytes)
    (hB : bytes.length < UINT64_SIZE)
    (hname : name ≠ [])
    (hi : i ≤ _getNumberOfChunksRequired bytes.length 1200 - 1)
    (hcache : ∀ entry, _createFetchResponseWithPreChunking.find registry fileName = some entry →
      ∃ name0, _chunkFileIntoMemory fs (fullFilePathOf directoryPath fileName) name0
        = .ok (some entry.chunks)) :
    (∃ c1 c2 registry',
        _createFetchResponse fs name directoryPath fileName i = some c1
        ∧ _createFetchResponseWithPreChunking fs registry name directoryPath fileName i
            = .ok (some c2, registry')
        ∧ c1.payload = c2.payload
        ∧ c1.finalChunkNumber = c2.finalChunkNumber
        ∧ c2.payload = byteRange bytes (i * 1200) (min (i * 1200 + 1200) bytes.length)
        ∧ c2.finalChunkNumber = _getNumberOfChunksRequired bytes.length 1200 - 1)
    ∧ (∀ (fs' : FileSystem) (name' : CCNxName) (idx : Nat),
        fs'.file (fullFilePathOf directoryPath fileName) = none →
        _createFetchResponseWithPreChunking.find registry fileName = none →
          _createFetchResponse fs' name' directoryPath fileName idx = none
          ∧ _createFetchResponseWithPreChunking fs' registry name' directoryPath fileName idx
              = .ok (none, registry)) := by
  have hF := getFinalChunkNumberOfFile_eq fs (fullFilePathOf directoryPath fileName) bytes hfile
    hB
  unfold tutorialCommon_ChunkSize at hF
  have hi' : i ≤ _getFinalChunkNumberOfFile fs (fullFilePathOf directoryPath fileName) 1200 := by
    rw [hF]; exact hi
  constructor
  · have hdemand := createFetchResponse_available fs name directoryPath fileName i bytes hfile
    unfold tutorialCommon_ChunkSize at hdemand
    cases hfind : _createFetchResponseWithPreChunking.find registry fileName with
    | some entry =>
      obtain ⟨name0, hbuilt⟩ := hcache entry hfind
      obtain ⟨bytes0, baseName, hfile0, hchunks⟩ :=
        chunkFileIntoMemory_some fs _ name0 entry.chunks hbuilt
      have hbytes : bytes0 = bytes := by
        rw [hfile] at hfile0
        injection hfile0 with h
        exact h.symm
      subst hbytes
      unfold tutorialCommon_ChunkSize at hchunks
      have hcall := preChunking_hit fs registry name directoryPath fileName i entry hfind
      rw [hchunks, List.getElem?_map, List.getElem?_range (by omega)] at hcall
      exact ⟨_, _, _, hdemand, hcall, rfl, rfl, rfl, hF⟩
    | none =>
      have hcall := preChunking_miss_available fs registry name directoryPath fileName i bytes
        hfind hfile hname
      unfold tutorialCommon_ChunkSize at hcall
      rw [List.getElem?_map, List.getElem?_range (by omega)] at hcall
      exact ⟨_, _, _, hdemand, hcall, rfl, rfl, rfl, hF⟩
  · intro fs' name' idx hnone hmiss
    exact ⟨createFetchResponse_unavailable fs' name' directoryPath fileName idx hnone,
      preChunking_miss_unavailable fs' registry name' directoryPath fileName idx hmiss hnone⟩

/-- Witness for C16: chunk 1, the last, of the 2400-byte file `/srv/movie`, with the two-chunk
entry the code built for it in the registry. -/
theorem mode_equivalence_witness :
    exampleOrigin.file (fullFilePathOf "/srv".toList "movie".toList)
        = some (List.replicate 2400 7)
    ∧ _chunkFileIntoMemory exampleOrigin (fullFilePathOf "/srv".toList "movie".toList)
        exampleFetchName = .ok (some exampleMovieEntry.chunks)
    ∧ (∃ c1 c2 registry',
        _createFetchResponse exampleOrigin exampleFetchName "/srv".toList "movie".toList 1
          = some c1
        ∧ _createFetchResponseWithPreChunking exampleOrigin [exampleMovieEntry] exampleFetchName
            "/srv".toList "movie".toList 1 = .ok (some c2, registry')
        ∧ c1.payload = c2.payload
        ∧ c1.finalChunkNumber = c2.finalChunkNumber
        ∧ c2.payload = byteRange (List.replicate 2400 7) (1 * 1200)
            (min (1 * 1200 + 1200) (List.replicate 2400 (7 : Byte)).length)
        ∧ c2.finalChunkNumber
            = _getNumberOfChunksRequired (List.replicate 2400 (7 : Byte)).length 1200 - 1)
    ∧ (∀ (fs' : FileSystem) (name' : CCNxName) (idx : Nat),
        fs'.file (fullFilePathOf "/srv".toList "movie".toList) = none →
        _createFetchResponseWithPreChunking.find [exampleMovieEntry] "movie".toList = none →
          _createFetchResponse fs' name' "/srv".toList "movie".toList idx = none
          ∧ _createFetchResponseWithPreChunking fs' [exampleMovieEntry] name' "/srv".toList
              "movie".toList idx = .ok (none, [exampleMovieEntry])) :=
  have hpath : fullFilePathOf "/srv".toList "movie".toList = "/srv/movie".toList := by decide
  have hfile : exampleOrigin.file (fullFilePathOf "/srv".toList "movie".toList)
      = some (List.replicate 2400 7) := by
    simp only [exampleOrigin, hpath, if_true]
  have hsize : (List.replicate 2400 (7 : Byte)).length < UINT64_SIZE := by
    simp only [List.length_replicate]; unfold UINT64_SIZE; decide
  have hbuilt : _chunkFileIntoMemory exampleOrigin (fullFilePathOf "/srv".toList "movie".toList)
      exampleFetchName = .ok (some exampleMovieEntry.chunks) := by
    have hcount : _getNumberOfChunksRequired 2400 1200 = 2 := by decide
    rw [chunkFileIntoMemory_eq exampleOrigin _ (List.replicate 2400 7) hfile exampleFetchName
      (by decide), getFinalChunkNumberOfFile_eq exampleOrigin _ (List.replicate 2400 7) hfile
      hsize]
    simp only [List.length_replicate, hcount]
    rfl
  ⟨hfile, hbuilt,
   mode_equivalence exampleOrigin [exampleMovieEntry] exampleFetchName "/srv".toList
    "movie".toList (List.replicate 2400 7) 1 hfile hsize
    (by decide)
    (by simp only [List.length_replicate]; decide)
    (fun entry hfind => ⟨exampleFetchName, by
      have he : exampleMovieEntry = entry := Option.some.inj hfind
      rw [← he]
      exact hbuilt⟩)⟩

/-- A fetch request in pre-chunked mode is answered by `_createFetchResponseWithPreChunking` under
the key that `tutorialCommon_CreateFileNameFromName` takes from its name. -/
theorem createInterestResponse_fetch_preChunked (fs : FileSystem) (registry : List ChunkList)
    (interestName domainPrefix : CCNxName) (directoryPath : CStr) (command fileName : CStr)
    (idx : Nat)
    (hcmd : tutorialCommon_CreateCommandStringFromName interestName domainPrefix = .ok command)
    (hfetch : _createInterestResponse.dispatch command = Dispatch.fetch)
    (hidx : tutorialCommon_GetChunkNumberFromName interestName = .ok idx)
    (hkey : tutorialCommon_CreateFileNameFromName interestName = .ok fileName) :
    _createInterestResponse fs registry interestName domainPrefix directoryPath true
      = _createFetchResponseWithPreChunking fs registry interestName directoryPath fileName idx := by
  rw [createInterestResponse_of_extracted fs registry interestName domainPrefix directoryPath true
    command idx hcmd hidx, hfetch]
  simp only [hkey, if_true]

/-- C17, as stated, fails: the fetch request `exampleTwoByteChunkName` asks for chunk 0 of
`empty` and has the base name of the request that builds the entry (it builds it itself, and
it also has the base name of `exampleFetchEmptyName`, the builder of `exampleEntry`), yet the
chunk it receives is named with the one-byte CHUNK segment and so not with the request name. -/
theorem chunkName_differs_same_base :
    tutorialCommon_GetChunkNumberFromName exampleTwoByteChunkName = .ok 0
    ∧ tutorialCommon_CreateFileNameFromName exampleTwoByteChunkName = .ok "empty".toList
    ∧ exampleTwoByteChunkName.dropLast = exampleFetchEmptyName.dropLast
    ∧ (∃ c, _createInterestResponse exampleOrigin [] exampleTwoByteChunkName exampleDomainPrefix
          "/srv".toList true = .ok (some c, [exampleEntry])
        ∧ c.name = exampleTwoByteChunkName.dropLast
            ++ [ccnxNameSegmentNumber_Create CCNxNameLabelType.CHUNK 0]
        ∧ c.name ≠ exampleTwoByteChunkName)
    ∧ (∃ c, _createInterestResponse emptyOrigin [exampleEntry] exampleTwoByteChunkName
          exampleDomainPrefix "/srv".toList true = .ok (some c, [exampleEntry])
        ∧ c.name = exampleFetchEmptyName.dropLast
            ++ [ccnxNameSegmentNumber_Create CCNxNameLabelType.CHUNK 0]
        ∧ c.name ≠ exampleTwoByteChunkName) := by
  refine ⟨by rfl, by rfl, by decide, ?_, ?_⟩
  · exact ⟨fileChunkObject (exampleDomainPrefix ++ [nameSegment "fetch", nameSegment "empty"])
      [] 0 0, by rfl, by rfl, by decide⟩
  · exact ⟨fileChunkObject (exampleDomainPrefix ++ [nameSegment "fetch", nameSegment "empty"])
      [] 0 0, by rfl, by rfl, by decide⟩

/-- C17, amended: in pre-chunked mode the registry is searched by the target file token alone,
and a chunk served from an entry is named after the request that built the entry. Let a fetch
request named `buildName`, with target file token `fileName`, build the entry. Then the chunk
it gets, and the chunk any later fetch request `requestName` with the same target file token
gets for its index `idx`, whatever the origin then is, has the name `buildName` without its
last segment followed by the CHUNK segment `ccnxNameSegmentNumber_Create` makes for the
requested index. That name is `requestName` exactly when `requestName` has the same base name
and ends in that very CHUNK segment; it differs from `requestName` when the base names differ,
and when the last segment of `requestName` is another segment, such as another encoding of the
same index. -/
theorem chunkName_follows_builder (fs fs' : FileSystem) (registry : List ChunkList)
    (buildName requestName domainPrefix : CCNxName) (directoryPath fileName : CStr)
    (buildCommand requestCommand : CStr) (bytes : List Byte) (buildIdx idx : Nat)
    (hcmdBuild : tutorialCommon_CreateCommandStringFromName buildName domainPrefix
      = .ok buildCommand)
    (hfetchBuild : _createInterestResponse.dispatch buildCommand = Dispatch.fetch)
    (hidxBuild : tutorialCommon_GetChunkNumberFromName buildName = .ok buildIdx)
    (hkeyBuild : tutorialCommon_CreateFileNameFromName buildName = .ok fileName)
    (hcmdRequest : tutorialCommon_CreateCommandStringFromName requestName domainPrefix
      = .ok requestCommand)
    (hfetchRequest : _createInterestResponse.dispatch requestCommand = Dispatch.fetch)
    (hidxRequest : tutorialCommon_GetChunkNumberFromName requestName = .ok idx)
    (hkeyRequest : tutorialCommon_CreateFileNameFromName requestName = .ok fileName)
    (hmiss : _createFetchResponseWithPreChunking.find registry fileName = none)
    (hfile : fs.file (fullFilePathOf directoryPath fileName) = some bytes)
    (hB : bytes.length < UINT64_SIZE)
    (hidx : idx ≤ _getNumberOfChunksRequired bytes.length 1200 - 1) :
    ∃ (r : Option CCNxContentObject) (registry' : List ChunkList) (c : CCNxContentObject),
      _createInterestResponse fs registry buildName domainPrefix directoryPath true
          = .ok (r, registry')
      ∧ (∀ c0, r = some c0 →
          c0.name = buildName.dropLast
            ++ [ccnxNameSegmentNumber_Create CCNxNameLabelType.CHUNK buildIdx])
      ∧ _createInterestResponse fs' registry' requestName domainPrefix directoryPath true
          = .ok (some c, registry')
      ∧ c.name = buildName.dropLast ++ [ccnxNameSegmentNumber_Create CCNxNameLabelType.CHUNK idx]
      ∧ (c.name = requestName ↔
          requestName.dropLast = buildName.dropLast
          ∧ requestName.getLast?
              = some (ccnxNameSegmentNumber_Create CCNxNameLabelType.CHUNK idx))
      ∧ (requestName.dropLast ≠ buildName.dropLast → c.name ≠ requestName)
      ∧ (requestName.getLast? ≠ some (ccnxNameSegmentNumber_Create CCNxNameLabelType.CHUNK idx) →
          c.name ≠ requestName) := by
  have hname := ne_nil_of_createFileName buildName fileName hkeyBuild
  have hF := getFinalChunkNumberOfFile_eq fs (fullFilePathOf directoryPath fileName) bytes hfile
    hB
  unfold tutorialCommon_ChunkSize at hF
  have hidx' : idx ≤ _getFinalChunkNumberOfFile fs (fullFilePathOf directoryPath fileName)
      1200 := by
    rw [hF]; exact hidx
  have hbuild := preChunking_miss_available fs registry buildName directoryPath fileName
    buildIdx bytes hmiss hfile hname
  unfold tutorialCommon_ChunkSize at hbuild
  rw [← createInterestResponse_fetch_preChunked fs registry buildName domainPrefix directoryPath
    buildCommand fileName buildIdx hcmdBuild hfetchBuild hidxBuild hkeyBuild] at hbuild
  have hhit := preChunking_hit fs' _ requestName directoryPath fileName idx _
    (find_append_of_miss registry (ChunkList.mk fileName
      ((List.range (_getFinalChunkNumberOfFile fs (fullFilePathOf directoryPath fileName) 1200
          + 1)).map
        (fileChunkObject buildName.dropLast bytes (_getFinalChunkNumberOfFile fs
          (fullFilePathOf directoryPath fileName) 1200)))) hmiss)
  simp only [] at hhit
  rw [List.getElem?_map, List.getElem?_range (by omega)] at hhit
  rw [← createInterestResponse_fetch_preChunked fs' _ requestName domainPrefix directoryPath
    requestCommand fileName idx hcmdRequest hfetchRequest hidxRequest hkeyRequest] at hhit
  have hiff : (buildName.dropLast ++ [ccnxNameSegmentNumber_Create CCNxNameLabelType.CHUNK idx]
      = requestName) ↔
      (requestName.dropLast = buildName.dropLast
        ∧ requestName.getLast?
            = some (ccnxNameSegmentNumber_Create CCNxNameLabelType.CHUNK idx)) := by
    constructor
    · intro heq
      rw [← heq, List.dropLast_concat, List.getLast?_concat]
      exact ⟨rfl, rfl⟩
    · rintro ⟨hbase, hlast⟩
      rw [← hbase]
      exact List.dropLast_append_getLast? _ hlast
  refine ⟨_, _, _, hbuild, ?_, hhit, rfl, ?_, ?_, ?_⟩
  · intro c0 hc0
    rw [List.getElem?_map] at hc0
    cases hr : (List.range (_getFinalChunkNumberOfFile fs
        (fullFilePathOf directoryPath fileName) 1200 + 1))[buildIdx]? with
    | none =>
      rw [hr] at hc0
      cases hc0
    | some j =>
      rw [hr] at hc0
      have hj : j = buildIdx := by
        have hmem := List.getElem?_eq_some.mp hr
        obtain ⟨hlt, hval⟩ := hmem
        rw [List.getElem_range] at hval
        exact hval.symm
      injection hc0 with hc1
      rw [← hc1, hj]
      rfl
  · exact hiff
  · intro hbase hcontra
    exact hbase (hiff.mp hcontra).1
  · intro hlast hcontra
    exact hlast (hiff.mp hcontra).2

/-- Witness for the amended C17: the entry for `/srv/empty` is built by
`lci:/ccnx/tutorial/fetch/empty/0`; later, when the file is gone, it is asked for again under
the same name, and under `lci:/ccnx/tutorial/fetch/other/empty/0`, which has the same target
file token and another base name. -/
theorem chunkName_follows_builder_witness :
    exampleOtherBaseName.dropLast ≠ exampleFetchEmptyName.dropLast
    ∧ (∃ (r : Option CCNxContentObject) (registry' : List ChunkList) (c : CCNxContentObject),
      _createInterestResponse exampleOrigin [] exampleFetchEmptyName exampleDomainPrefix
          "/srv".toList true = .ok (r, registry')
      ∧ (∀ c0, r = some c0 →
          c0.name = exampleFetchEmptyName.dropLast
            ++ [ccnxNameSegmentNumber_Create CCNxNameLabelType.CHUNK 0])
      ∧ _createInterestResponse emptyOrigin registry' exampleFetchEmptyName exampleDomainPrefix
          "/srv".toList true = .ok (some c, registry')
      ∧ c.name = exampleFetchEmptyName.dropLast
          ++ [ccnxNameSegmentNumber_Create CCNxNameLabelType.CHUNK 0]
      ∧ (c.name = exampleFetchEmptyName ↔
          exampleFetchEmptyName.dropLast = exampleFetchEmptyName.dropLast
          ∧ exampleFetchEmptyName.getLast?
              = some (ccnxNameSegmentNumber_Create CCNxNameLabelType.CHUNK 0))
      ∧ (exampleFetchEmptyName.dropLast ≠ exampleFetchEmptyName.dropLast →
          c.name ≠ exampleFetchEmptyName)
      ∧ (exampleFetchEmptyName.getLast?
            ≠ some (ccnxNameSegmentNumber_Create CCNxNameLabelType.CHUNK 0) →
          c.name ≠ exampleFetchEmptyName))
    ∧ (∃ (r : Option CCNxContentObject) (registry' : List ChunkList) (c : CCNxContentObject),
      _createInterestResponse exampleOrigin [] exampleFetchEmptyName exampleDomainPrefix
          "/srv".toList true = .ok (r, registry')
      ∧ (∀ c0, r = some c0 →
          c0.name = exampleFetchEmptyName.dropLast
            ++ [ccnxNameSegmentNumber_Create CCNxNameLabelType.CHUNK 0])
      ∧ _createInterestResponse emptyOrigin registry' exampleOtherBaseName exampleDomainPrefix
          "/srv".toList true = .ok (some c, registry')
      ∧ c.name = exampleFetchEmptyName.dropLast
          ++ [ccnxNameSegmentNumber_Create CCNxNameLabelType.CHUNK 0]
      ∧ (c.name = exampleOtherBaseName ↔
          exampleOtherBaseName.dropLast = exampleFetchEmptyName.dropLast
          ∧ exampleOtherBaseName.getLast?
              = some (ccnxNameSegmentNumber_Create CCNxNameLabelType.CHUNK 0))
      ∧ (exampleOtherBaseName.dropLast ≠ exampleFetchEmptyName.dropLast →
          c.name ≠ exampleOtherBaseName)
      ∧ (exampleOtherBaseName.getLast?
            ≠ some (ccnxNameSegmentNumber_Create CCNxNameLabelType.CHUNK 0) →
          c.name ≠ exampleOtherBaseName)) :=
  ⟨by decide,
   chunkName_follows_builder exampleOrigin emptyOrigin [] exampleFetchEmptyName
     exampleFetchEmptyName exampleDomainPrefix "/srv".toList "empty".toList "fetch".toList
     "fetch".toList [] 0 0 (by rfl) (by decide) (by rfl) (by rfl) (by rfl) (by decide) (by rfl)
     (by rfl) (by rfl) (by decide) (by unfold UINT64_SIZE; decide) (Nat.zero_le _),
   chunkName_follows_builder exampleOrigin emptyOrigin [] exampleFetchEmptyName
     exampleOtherBaseName exampleDomainPrefix "/srv".toList "empty".toList "fetch".toList
     "fetch".toList [] 0 0 (by rfl) (by decide) (by rfl) (by rfl) (by rfl) (by decide) (by rfl)
     (by rfl) (by rfl) (by decide) (by unfold UINT64_SIZE; decide) (Nat.zero_le _)⟩

end CcnxTutorial
